import Mathlib

/-!
Verification of the linkedin-scraper extraction pipeline.

This file shallowly embeds the core of the repository:
`linkedin_scraper/scrapers/recommended_jobs.py` (the module scraper),
its near-duplicate `samples/scrape_recommended_jobs.py` (the sample scraper),
and `backend/scraper_service.py` (the service callbacks), and proves or
refutes the frozen behavioural claims about them.

Python strings are modelled as `String`/`List Char`, with hand-rolled,
kernel-computable counterparts of the Python string methods used by the
source (`strip`, `lower`, `split`, substring containment, the few regular
expressions).  Page-automation reads (`locator(...).first`, `count()`,
`inner_text()`, `get_attribute(...)`) are modelled as environment data: a
query either raises, matches nothing, or returns an element's text.
Loops whose termination the source leaves implicit are embedded with an
explicit iteration budget (`fuel`) and the termination claims are proved as
fuel-sufficiency theorems.
-/

/-! ### Python string primitives -/

/-- Python `\s` whitespace class (`str.strip` / regex `\s`). -/
def isPySpace (c : Char) : Bool :=
  c = ' ' || c = '\t' || c = '\n' || c = '\r' || c = '\x0b' || c = '\x0c'

/-- Python `str.strip()` on a character list. -/
def pyStripL (l : List Char) : List Char :=
  ((l.dropWhile isPySpace).reverse.dropWhile isPySpace).reverse

/-- Python `str.strip()`. -/
def pyStrip (s : String) : String := String.mk (pyStripL s.toList)

/-- Python `str.lower()` (ASCII; all source inputs are ASCII-cased). -/
def pyLowerL (l : List Char) : List Char := l.map Char.toLower

/-- Python `str.lower()`. -/
def pyLower (s : String) : String := String.mk (pyLowerL s.toList)

/-- Does `l` start with the sequence `p`? -/
def startsSeq (p l : List Char) : Bool :=
  match p, l with
  | [], _ => true
  | _ :: _, [] => false
  | a :: ps, b :: bs => a = b && startsSeq ps bs

/-- Does `hay` contain `needle` as a contiguous subsequence?  Python `needle in hay`. -/
def containsSeq (needle : List Char) : List Char → Bool
  | [] => needle.isEmpty
  | b :: bs => startsSeq needle (b :: bs) || containsSeq needle bs

/-- Python `needle in hay` on strings. -/
def strContains (hay needle : String) : Bool := containsSeq needle.toList hay.toList

/-- Python `hay.startswith(p)`. -/
def pyStartsWith (hay p : String) : Bool := startsSeq p.toList hay.toList

/-- Splitter for Python `str.split(sep)` with a non-empty separator
`s0 :: srest`; `fuel` bounds the scan (callers pass the input length). -/
def splitSeqFuel (s0 : Char) (srest : List Char) : Nat → List Char → List Char → List (List Char)
  | 0, _, acc => [acc.reverse]
  | _ + 1, [], acc => [acc.reverse]
  | fuel + 1, c :: rest, acc =>
    if startsSeq (s0 :: srest) (c :: rest) then
      acc.reverse :: splitSeqFuel s0 srest fuel (rest.drop srest.length) []
    else
      splitSeqFuel s0 srest fuel rest (c :: acc)

/-- Python `s.split(sep)` for a non-empty separator (the source only splits on
`"\n"`, the literal two-character `"\\n"`, `"/"`, `"?"` and `"/jobs/view/"`). -/
def pySplit (sep s : String) : List String :=
  match sep.toList with
  | [] => [s]
  | s0 :: srest => (splitSeqFuel s0 srest (s.toList.length + 1) s.toList []).map String.mk

/-- Digits of a decimal numeral to a `Nat` (Python `int(...)` on a digit string). -/
def digitsToNat (l : List Char) : Nat :=
  l.foldl (fun n c => n * 10 + (c.toNat - '0'.toNat)) 0

/-! ### Collection validation (`JobCollection`, C1)

`JobCollection` in `recommended_jobs.py` is a closed enumeration of 39
string tokens; `from_string` lowercases its argument before the membership
test, and `JobCollectionScraper.__init__` falls back to the exact-value
constructor when `from_string` raises. -/

/-- The 39 `JobCollection` enum values of `recommended_jobs.py`. -/
def jobCollectionValues : List String :=
  ["recommended", "top-applicant", "easy-apply", "hybrid", "remote-jobs",
   "part-time-jobs", "sustainability", "manufacturing", "defense-and-space",
   "social-impact", "government", "pharmaceuticals", "biotechnology",
   "construction", "real-estate", "restaurants", "retail", "hospitality",
   "financial-services", "transportation-and-logistics",
   "hospitals-and-healthcare", "food-and-beverages", "apparel-and-fashion",
   "museums-historical-sites-and-zoos", "media", "publishing",
   "digital-security", "human-resources", "staffing-and-recruiting",
   "marketing-and-advertising", "civil-eng", "higher-edu", "education",
   "small-business", "volunteer", "non-profits", "human-services",
   "career-growth", "work-life-balance"]

/-- `JobCollection.from_string`: `cls(value.lower())`, i.e. lowercase then
exact membership; `none` models the raised `ValueError`. -/
def jobCollectionFromString (v : String) : Option String :=
  if jobCollectionValues.contains (pyLower v) then some (pyLower v) else none

/-- `JobCollectionScraper.__init__` on a string argument: try `from_string`;
on `ValueError` retry the bare enum constructor `JobCollection(collection)`
(exact membership, no lowercasing); a second `ValueError` propagates to the
caller (modelled as `.error`), before any navigation is attempted. -/
def initCollection (collection : String) : Except String String :=
  match jobCollectionFromString collection with
  | some c => .ok c
  | none =>
    if jobCollectionValues.contains collection then .ok collection
    else .error ("InvalidCollection: " ++ collection)

/-- `JobCollectionScraper.BASE_URL`. -/
def BASE_URL : String := "https://www.linkedin.com/jobs/collections/"

/-- `self.collection_url = f"{self.BASE_URL}{self.collection.value}/"`. -/
def collectionUrl (c : String) : String := BASE_URL ++ c ++ "/"

/-- The destination address the walker builds for a collection argument, or
the validation error raised before navigation. -/
def walkAddress (collection : String) : Except String String :=
  (initCollection collection).map collectionUrl

/-- Every `JobCollection` token is already lowercase, so `pyLower` fixes it. -/
theorem jobCollectionValues_lower_fixed :
    ∀ t ∈ jobCollectionValues, pyLower t = t := by
  intro t ht
  have h := List.all_eq_true.mp
    (by decide : jobCollectionValues.all (fun t => pyLower t == t) = true) t ht
  exact eq_of_beq h

/-- C1 (counterexample): the string `"Recommended"` is not one of the 39
accepted `CollectionIdentifier` tokens, yet the walker does not fail with
`InvalidCollection`: validation lowercases first, so it accepts the string
and builds the `"recommended"` address.  This refutes the claim that for any
string other than an accepted token the walk fails before navigation. -/
theorem c1_counterexample :
    jobCollectionValues.contains "Recommended" = false ∧
    initCollection "Recommended" = .ok "recommended" ∧
    walkAddress "Recommended" =
      .ok "https://www.linkedin.com/jobs/collections/recommended/" := by
  refine ⟨by decide, by rfl, by rfl⟩

/-- C1 (amended): validation is case-insensitive.  For every string whose
lowercasing is an accepted token — in particular for every token itself —
the destination address is the fixed base path, the lowercased token, and a
trailing `"/"`; every string whose lowercasing is not a token fails with
`InvalidCollection` before any navigation call (`initCollection` is run by
the scraper constructor, before `scrape` issues any page operation). -/
theorem c1_walk_address :
    (∀ s : String,
      (pyLower s ∈ jobCollectionValues →
        walkAddress s = .ok (BASE_URL ++ pyLower s ++ "/")) ∧
      (pyLower s ∉ jobCollectionValues →
        walkAddress s = .error ("InvalidCollection: " ++ s))) ∧
    (∀ t ∈ jobCollectionValues, walkAddress t = .ok (BASE_URL ++ t ++ "/")) := by
  have hmain : ∀ s : String,
      (pyLower s ∈ jobCollectionValues →
        walkAddress s = .ok (BASE_URL ++ pyLower s ++ "/")) ∧
      (pyLower s ∉ jobCollectionValues →
        walkAddress s = .error ("InvalidCollection: " ++ s)) := by
    intro s
    constructor
    · intro h
      simp [walkAddress, initCollection, jobCollectionFromString, collectionUrl,
        Except.map, h]
    · intro h
      have hs : s ∉ jobCollectionValues := fun hmem =>
        h (by rw [jobCollectionValues_lower_fixed s hmem]; exact hmem)
      simp [walkAddress, initCollection, jobCollectionFromString, Except.map, h, hs]
  refine ⟨hmain, ?_⟩
  intro t ht
  have hfix := jobCollectionValues_lower_fixed t ht
  have h2 : pyLower t ∈ jobCollectionValues := by rw [hfix]; exact ht
  have := (hmain t).1 h2
  rwa [hfix] at this

/-- C1 (witness): the theorem applied at the token `"remote-jobs"` and at the
rejected string `"bogus"`. -/
theorem c1_witness :
    walkAddress "remote-jobs" = .ok (BASE_URL ++ "remote-jobs" ++ "/") ∧
    walkAddress "bogus" = .error ("InvalidCollection: " ++ "bogus") :=
  ⟨c1_walk_address.2 "remote-jobs" (by decide),
   (c1_walk_address.1 "bogus").2 (by decide)⟩

/-! ### Data model (`models/job.py`, `samples` dataclasses)

`RecommendedJob` (module, pydantic) and `JobListing` (sample, dataclass)
declare the same field set; one structure serves for both. -/

/-- A hiring-team member, as built by `_extract_hiring_team` (a member with
no resolvable name is never appended, so `name` is present by construction). -/
structure HiringTeamMember where
  name : String
  profile_url : Option String := none
  title : Option String := none
  connection_degree : Option String := none
  is_job_poster : Bool := false
  mutual_connections : Option String := none
  deriving DecidableEq

/-- Result of the match-analysis parse (`_extract_match_analysis`). -/
structure MatchAnalysis where
  raw_text : String
  summary : Option String := none
  matched_qualifications : List String := []
  missing_qualifications : List String := []
  total_required : Option Nat := none
  total_matched : Option Nat := none
  deriving DecidableEq

/-- A scraped job record (`RecommendedJob` / `JobListing`). -/
structure RecommendedJob where
  job_id : String
  job_url : String
  collection : String
  title : Option String := none
  company : Option String := none
  company_url : Option String := none
  location : Option String := none
  posted_time : Option String := none
  employment_type : Option String := none
  workplace_type : Option String := none
  promoted : Bool := false
  easy_apply : Bool := false
  actively_hiring : Bool := false
  description : Option String := none
  hiring_team : Option (List HiringTeamMember) := none
  match_analysis : Option MatchAnalysis := none
  deriving DecidableEq

/-- The dictionary returned by `_fetch_job_details`. -/
structure JobDetails where
  description : Option String
  hiring_team : Option (List HiringTeamMember)
  match_analysis : Option MatchAnalysis
  deriving DecidableEq

/-! ### Match-analysis text parsing (C5)

`_extract_match_analysis` parses the captured analysis text with string
operations and one regular expression,
`r'matches?\s+(\d+)\s+of\s+(?:the\s+)?(\d+)\s+required'`, searched on the
lowercased text.  The regex is embedded as a hand-rolled matcher below. -/

/-- Expect the literal character sequence `p`; return the remaining input. -/
def litSeq : List Char → List Char → Option (List Char)
  | [], l => some l
  | _ :: _, [] => none
  | p :: ps, c :: cs => if c = p then litSeq ps cs else none

/-- Regex `\s+`: one or more whitespace characters (greedy; the following
regex atoms here never match whitespace, so greediness is exact). -/
def ws1 : List Char → Option (List Char)
  | [] => none
  | c :: cs => if isPySpace c then some (cs.dropWhile isPySpace) else none

/-- Regex `(\d+)`: a maximal non-empty digit run, as a number. -/
def digits1 : List Char → Option (Nat × List Char)
  | [] => none
  | c :: cs =>
    if c.isDigit then
      some (digitsToNat (c :: cs.takeWhile Char.isDigit), cs.dropWhile Char.isDigit)
    else none

/-- Suffix `(\d+)\s+required` of the qualification-count regex. -/
def matchesTail (l : List Char) : Option Nat :=
  match digits1 l with
  | none => none
  | some (b, l1) =>
    match ws1 l1 with
    | none => none
    | some l2 =>
      match litSeq "required".toList l2 with
      | none => none
      | some _ => some b

/-- Match `matches?\s+(\d+)\s+of\s+(?:the\s+)?(\d+)\s+required` at the head
of the input; the optional `the\s+` group backtracks exactly as the regex
engine does (try with the group, then without). -/
def parseMatchesAt (l : List Char) : Option (Nat × Nat) :=
  match litSeq "matche".toList l with
  | none => none
  | some l0 =>
    let l1 := match l0 with | 's' :: r => r | r => r
    match ws1 l1 with
    | none => none
    | some l2 =>
      match digits1 l2 with
      | none => none
      | some (a, l3) =>
        match ws1 l3 with
        | none => none
        | some l4 =>
          match litSeq "of".toList l4 with
          | none => none
          | some l5 =>
            match ws1 l5 with
            | none => none
            | some l6 =>
              match (match litSeq "the".toList l6 with
                     | none => none
                     | some l7 =>
                       match ws1 l7 with
                       | none => none
                       | some l8 => matchesTail l8) with
              | some b => some (a, b)
              | none => (matchesTail l6).map (fun b => (a, b))

/-- `re.search` for the qualification-count regex: leftmost match wins. -/
def searchMatches : List Char → Option (Nat × Nat)
  | [] => none
  | c :: rest =>
    match parseMatchesAt (c :: rest) with
    | some r => some r
    | none => searchMatches rest

/-- The summary-selection loop of `_extract_match_analysis`: a line holding a
qualifying phrase wins and stops the scan; otherwise the first substantive
line (non-empty, not a bullet, not mentioning "qualification") is kept. -/
def summaryLoop : List String → Option String → Option String
  | [], acc => acc
  | l :: rest, acc =>
    let s := pyStrip l
    let low := pyLower s
    if strContains low "top applicant" = true ∨ strContains low "strong match" = true ∨
        strContains low "good match" = true then
      some s
    else if s ≠ "" ∧ pyStartsWith s "✓" = false ∧ pyStartsWith s "?" = false ∧
        strContains low "qualification" = false then
      summaryLoop rest (if acc = none then some s else acc)
    else
      summaryLoop rest acc

/-- Collect the lines starting with bullet `b`, bullet stripped and trimmed
(`line[1:].strip()`), skipping entries that strip to empty. -/
def collectBullets (b : Char) (lines : List String) : List String :=
  lines.filterMap (fun l =>
    match pyStripL l.toList with
    | [] => none
    | c :: rest =>
      if c = b then
        let q := pyStripL rest
        if q = [] then none else some (String.mk q)
      else none)

/-- The pure parsing tail of `_extract_match_analysis`, parameterised by the
line separator actually passed to `str.split`: the sample script splits on a
newline, the module file on the literal two-character sequence `\` `n`. -/
def parseMatchAnalysisText (sep : String) (analysisText : String) : MatchAnalysis :=
  let lines := pySplit sep analysisText
  let counts := searchMatches (pyLowerL analysisText.toList)
  { raw_text := pyStrip analysisText
    summary := summaryLoop lines none
    matched_qualifications := collectBullets '✓' lines
    missing_qualifications := collectBullets '?' lines
    total_matched := counts.map (·.1)
    total_required := counts.map (·.2) }

/-- Match-analysis parsing as in `samples/scrape_recommended_jobs.py`
(`analysis_text.split('\n')`, a real newline). -/
def parseMatchAnalysisSample (t : String) : MatchAnalysis :=
  parseMatchAnalysisText "\n" t

/-- Match-analysis parsing as in
`linkedin_scraper/scrapers/recommended_jobs.py`, whose
`analysis_text.split('\\n')` splits on the literal two-character sequence
backslash-`n`, not on a newline. -/
def parseMatchAnalysisModule (t : String) : MatchAnalysis :=
  parseMatchAnalysisText "\\n" t

/-- The newline-separated match-analysis fixture of the claim: a counts
line, two checkmark-bullet lines, one question-mark-bullet line. -/
def c5Input : String :=
  "Matches 2 of the 5 required qualifications\n✓ Python development\n✓ SQL databases\n? Kubernetes experience"

/-- C5: on newline-separated analysis text the sample implementation parses
exactly as claimed (`total_matched=2`, `total_required=5`, two matched and
one missing qualification, bullet-stripped, in source order), but the module
implementation splits on the literal two-character sequence backslash-`n`,
sees one single "line", and returns empty qualification lists — contradicting
its own parallel implementation and the documented parse.  The counts still
come out of the regex, which runs on the unsplit text. -/
theorem c5_match_analysis_parse :
    (parseMatchAnalysisSample c5Input).total_matched = some 2 ∧
    (parseMatchAnalysisSample c5Input).total_required = some 5 ∧
    (parseMatchAnalysisSample c5Input).matched_qualifications =
      ["Python development", "SQL databases"] ∧
    (parseMatchAnalysisSample c5Input).missing_qualifications =
      ["Kubernetes experience"] ∧
    (parseMatchAnalysisModule c5Input).matched_qualifications = [] ∧
    (parseMatchAnalysisModule c5Input).missing_qualifications = [] ∧
    (parseMatchAnalysisModule c5Input).total_matched = some 2 := by
  decide

/-! ### Field-extraction cascades (C4)

A page/element query (`locator(sel).first` + `count()` + `inner_text()`)
either raises, matches nothing, or yields an element's text. -/

/-- Outcome of resolving one candidate locator against the page. -/
inductive QRes where
  | raises
  | absent
  | elem (text : String)
  deriving DecidableEq

/-- The ordered candidate list of `_extract_job_description`. -/
def descriptionSelectors : List String :=
  ["#job-details", ".jobs-description__content", ".jobs-description-content__text",
   ".jobs-box__html-content", "article.jobs-description__container"]

/-- Strip the leading `"About the job"` header if present
(`description[len('About the job'):].strip()`), as `_extract_job_description`
does after trimming. -/
def stripAboutHeader (s : String) : String :=
  if pyStartsWith s "About the job" then String.mk (pyStripL (s.toList.drop 13)) else s

/-- The selector loop of `_extract_job_description`: a raising or
non-matching candidate is skipped; a matching candidate whose raw text is
non-empty (`if description:` — tested before trimming) wins, and its text is
trimmed and header-stripped; a matching candidate with raw text `""` falls
through to the next candidate. -/
def descCascade (env : String → QRes) : List String → Option String
  | [] => none
  | sel :: rest =>
    match env sel with
    | .elem t =>
      if t ≠ "" then some (stripAboutHeader (pyStrip t)) else descCascade env rest
    | _ => descCascade env rest

/-- `_extract_job_description` over a page environment. -/
def extract_job_description (env : String → QRes) : Option String :=
  descCascade env descriptionSelectors

/-- The selector loop of the sample `_parse_job_card` field cascades
(title/company/location).  The Python field variable is a mutable residue
(`acc`, initially `None`): a raising or non-matching candidate leaves it
unchanged; a matching candidate reassigns it — `None` when the raw text is
empty (`title.strip() if title else None`), the empty string when the text
strips to empty — and only a candidate with non-empty *trimmed* text breaks
the loop; when no candidate breaks, the record keeps the residue, which can
be the empty string, not `None`. -/
def sampleFieldLoop (env : String → QRes) : List String → Option String → Option String
  | [], acc => acc
  | sel :: rest, acc =>
    match env sel with
    | .raises => sampleFieldLoop env rest acc
    | .absent => sampleFieldLoop env rest acc
    | .elem t =>
      if t = "" then sampleFieldLoop env rest none
      else if pyStrip t = "" then sampleFieldLoop env rest (some "")
      else some (pyStrip t)

/-- The ordered title candidates of the sample `_parse_job_card`. -/
def sampleTitleSelectors : List String :=
  [".job-card-list__title", ".artdeco-entity-lockup__title",
   "a[class*=\"job-card\"] strong", ".job-card-container__link strong",
   "strong", "[class*=\"title\"]"]

/-- Title resolution of the sample `_parse_job_card` (`title = None` before
the loop). -/
def sampleCardTitle (env : String → QRes) : Option String :=
  sampleFieldLoop env sampleTitleSelectors none

/-- Modelled from the spec: the Field Extraction Cascade contract of §4.1,
stated in the spec's words — "returns the first candidate that resolves to
at least one matching element AND whose extracted text, after trimming, is
non-empty.  Returns absent if every candidate fails or all resolve to empty
text."  Used only to compare the implementations against the claim. -/
def cascadeSpec (env : String → QRes) : List String → Option String
  | [] => none
  | sel :: rest =>
    match env sel with
    | .elem t =>
      if pyStrip t ≠ "" then some (pyStrip t) else cascadeSpec env rest
    | _ => cascadeSpec env rest

/-- A candidate the description cascade skips: it raises, matches nothing,
or yields the raw empty string. -/
def descSkips (env : String → QRes) (s : String) : Prop :=
  env s = .raises ∨ env s = .absent ∨ env s = .elem ""

/-- A candidate the trimmed cascade skips: it raises, matches nothing, or
yields text that trims to empty. -/
def trimSkips (env : String → QRes) (s : String) : Prop :=
  env s = .raises ∨ env s = .absent ∨ ∃ u, env s = .elem u ∧ pyStrip u = ""

/-- Skipped candidates in front of a description cascade do not change it. -/
theorem descCascade_skips (env : String → QRes) (pre rest : List String)
    (h : ∀ s ∈ pre, descSkips env s) :
    descCascade env (pre ++ rest) = descCascade env rest := by
  induction pre with
  | nil => rfl
  | cons a as ih =>
    have ha := h a (by simp)
    have hrest : ∀ s ∈ as, descSkips env s := fun s hs => h s (by simp [hs])
    rcases ha with h1 | h1 | h1 <;> simp [descCascade, h1, ih hrest]

/-- `pyStrip` of the empty string. -/
theorem pyStrip_empty : pyStrip "" = "" := rfl

/-- Candidates that raise or match nothing leave the sample field residue
untouched. -/
theorem sampleFieldLoop_no_match (env : String → QRes) :
    ∀ (l : List String) (acc : Option String),
    (∀ s ∈ l, env s = .raises ∨ env s = .absent) →
    sampleFieldLoop env l acc = acc := by
  intro l
  induction l with
  | nil => intro acc _; rfl
  | cons a as ih =>
    intro acc h
    have ha := h a (by simp)
    have hrest : ∀ s ∈ as, env s = .raises ∨ env s = .absent :=
      fun s hs => h s (by simp [hs])
    rcases ha with h1 | h1 <;> simp [sampleFieldLoop, h1, ih _ hrest]

/-- The first candidate with non-empty trimmed text wins the sample field
loop, whatever residue precedes it. -/
theorem sampleFieldLoop_wins (env : String → QRes) :
    ∀ (pre post : List String) (sel t : String) (acc : Option String),
    (∀ s ∈ pre, trimSkips env s) → env sel = .elem t → pyStrip t ≠ "" →
    sampleFieldLoop env (pre ++ sel :: post) acc = some (pyStrip t) := by
  intro pre
  induction pre with
  | nil =>
    intro post sel t acc _ hsel ht
    have htne : t ≠ "" := by
      intro h0; rw [h0] at ht; exact ht pyStrip_empty
    simp [sampleFieldLoop, hsel, htne, ht]
  | cons a as ih =>
    intro post sel t acc hpre hsel ht
    have hrest : ∀ s ∈ as, trimSkips env s := fun s hs => hpre s (by simp [hs])
    rcases hpre a (by simp) with h1 | h1 | ⟨u, h1, h2⟩
    · simp [sampleFieldLoop, h1, ih post sel t acc hrest hsel ht]
    · simp [sampleFieldLoop, h1, ih post sel t acc hrest hsel ht]
    · by_cases hu : u = ""
      · simp [sampleFieldLoop, h1, hu, ih post sel t none hrest hsel ht]
      · simp [sampleFieldLoop, h1, hu, h2, ih post sel t (some "") hrest hsel ht]

/-- When a matched candidate strips to empty and every later candidate
raises or matches nothing, the sample field loop ends with the empty-string
residue — not with an absent value. -/
theorem sampleFieldLoop_residue (env : String → QRes) :
    ∀ (pre post : List String) (sel t : String) (acc : Option String),
    (∀ s ∈ pre, trimSkips env s) → env sel = .elem t → t ≠ "" → pyStrip t = "" →
    (∀ s ∈ post, env s = .raises ∨ env s = .absent) →
    sampleFieldLoop env (pre ++ sel :: post) acc = some "" := by
  intro pre
  induction pre with
  | nil =>
    intro post sel t acc _ hsel ht hstrip hpost
    simp [sampleFieldLoop, hsel, ht, hstrip,
      sampleFieldLoop_no_match env post (some "") hpost]
  | cons a as ih =>
    intro post sel t acc hpre hsel ht hstrip hpost
    have hrest : ∀ s ∈ as, trimSkips env s := fun s hs => hpre s (by simp [hs])
    rcases hpre a (by simp) with h1 | h1 | ⟨u, h1, h2⟩
    · simp [sampleFieldLoop, h1, ih post sel t acc hrest hsel ht hstrip hpost]
    · simp [sampleFieldLoop, h1, ih post sel t acc hrest hsel ht hstrip hpost]
    · by_cases hu : u = ""
      · simp [sampleFieldLoop, h1, hu, ih post sel t none hrest hsel ht hstrip hpost]
      · simp [sampleFieldLoop, h1, hu, h2,
          ih post sel t (some "") hrest hsel ht hstrip hpost]

/-- The environment refuting C4 on the description cascade: the first
candidate matches with whitespace-only text, the third with
`"Third value"`. -/
def c4Env : String → QRes := fun sel =>
  if sel = "#job-details" then .elem " "
  else if sel = ".jobs-description-content__text" then .elem "Third value"
  else .absent

/-- The environment refuting C4 on the sample title cascade: the second
candidate matches with whitespace-only text, nothing else matches. -/
def c4EnvE : String → QRes := fun sel =>
  if sel = ".artdeco-entity-lockup__title" then .elem " " else .absent

/-- C4 (counterexample): the claim's contract (`cascadeSpec`) predicts
`"Third value"` for `c4Env` — the first candidate whose *trimmed* text is
non-empty is the third — but `_extract_job_description` tests raw text for
emptiness *before* trimming, so the whitespace-only first candidate wins and
the empty string is returned instead of falling through.  And for `c4EnvE`
the contract predicts an absent value — every candidate fails or trims to
empty — but the sample title loop keeps the empty-string residue of the
whitespace-only matched candidate, so the record carries `""`, not
absence. -/
theorem c4_counterexample :
    extract_job_description c4Env = some "" ∧
    cascadeSpec c4Env descriptionSelectors = some "Third value" ∧
    sampleCardTitle c4EnvE = some "" ∧
    cascadeSpec c4EnvE sampleTitleSelectors = none := by
  refine ⟨by decide, by decide, by decide, by decide⟩

/-- C4 (amended): a non-matching or raising candidate never aborts a
cascade.  A winning candidate is as claimed everywhere: the first candidate
with non-empty trimmed text resolves the field to its trimmed text (the
description cascade additionally strips an `"About the job"` header and, by
testing the *raw* text before trimming, lets a whitespace-only candidate win
with `""` instead of falling through).  The absent-otherwise part holds for
the description cascade, but only partially for the sample title/company/
location loops: the field is absent when no candidate ever matched (or the
last matched one had raw-empty text), while a matched candidate whose text
strips to empty leaves the empty-string residue `""` on the record, not an
absent value. -/
theorem c4_cascade :
    (∀ (env : String → QRes) (pre post : List String) (sel t : String),
      descriptionSelectors = pre ++ sel :: post →
      (∀ s ∈ pre, descSkips env s) → env sel = .elem t → t ≠ "" →
      extract_job_description env = some (stripAboutHeader (pyStrip t))) ∧
    (∀ env : String → QRes, (∀ s ∈ descriptionSelectors, descSkips env s) →
      extract_job_description env = none) ∧
    (∀ (env : String → QRes) (pre post : List String) (sel t : String),
      sampleTitleSelectors = pre ++ sel :: post →
      (∀ s ∈ pre, trimSkips env s) → env sel = .elem t → pyStrip t ≠ "" →
      sampleCardTitle env = some (pyStrip t)) ∧
    (∀ env : String → QRes,
      (∀ s ∈ sampleTitleSelectors, env s = .raises ∨ env s = .absent) →
      sampleCardTitle env = none) ∧
    (∀ (env : String → QRes) (pre post : List String) (sel t : String),
      sampleTitleSelectors = pre ++ sel :: post →
      (∀ s ∈ pre, trimSkips env s) → env sel = .elem t → t ≠ "" → pyStrip t = "" →
      (∀ s ∈ post, env s = .raises ∨ env s = .absent) →
      sampleCardTitle env = some "") := by
  refine ⟨?_, ?_, ?_, ?_, ?_⟩
  · intro env pre post sel t hdec hpre hsel ht
    unfold extract_job_description
    rw [hdec, descCascade_skips env pre _ hpre]
    simp [descCascade, hsel, ht]
  · intro env h
    have := descCascade_skips env descriptionSelectors [] h
    simpa [extract_job_description, descCascade] using this
  · intro env pre post sel t hdec hpre hsel ht
    unfold sampleCardTitle
    rw [hdec]
    exact sampleFieldLoop_wins env pre post sel t none hpre hsel ht
  · intro env h
    unfold sampleCardTitle
    exact sampleFieldLoop_no_match env sampleTitleSelectors none h
  · intro env pre post sel t hdec hpre hsel ht hstrip hpost
    unfold sampleCardTitle
    rw [hdec]
    exact sampleFieldLoop_residue env pre post sel t none hpre hsel ht hstrip hpost

/-- Witness environment for the description part of C4. -/
def c4WitEnv : String → QRes := fun sel =>
  if sel = ".jobs-description__content" then .elem " About the job Great role " else .absent

/-- Witness environment for the title part of C4. -/
def c4WitEnvT : String → QRes := fun sel =>
  if sel = ".artdeco-entity-lockup__title" then .elem "  Engineer " else .absent

/-- C4 (witness): the amended cascade theorem applied to concrete
environments — the second description candidate carries a header-prefixed
text, the second title candidate carries padded text, and the residue part
at the whitespace-only title environment. -/
theorem c4_witness :
    (extract_job_description c4WitEnv =
      some (stripAboutHeader (pyStrip " About the job Great role "))) ∧
    sampleCardTitle c4WitEnvT = some (pyStrip "  Engineer ") ∧
    sampleCardTitle c4EnvE = some "" := by
  refine ⟨?_, ?_, ?_⟩
  · exact c4_cascade.1 c4WitEnv ["#job-details"]
      [".jobs-description-content__text", ".jobs-box__html-content",
       "article.jobs-description__container"]
      ".jobs-description__content" " About the job Great role " (by decide)
      (by intro s hs; simp at hs; subst hs; exact Or.inr (Or.inl rfl)) (by decide)
      (by decide)
  · exact c4_cascade.2.2.1 c4WitEnvT [".job-card-list__title"]
      ["a[class*=\"job-card\"] strong", ".job-card-container__link strong",
       "strong", "[class*=\"title\"]"]
      ".artdeco-entity-lockup__title" "  Engineer " (by decide)
      (by intro s hs; simp at hs; subst hs; exact Or.inr (Or.inl rfl)) (by decide)
      (by decide)
  · exact c4_cascade.2.2.2.2 c4EnvE [".job-card-list__title"]
      ["a[class*=\"job-card\"] strong", ".job-card-container__link strong",
       "strong", "[class*=\"title\"]"]
      ".artdeco-entity-lockup__title" " " (by decide)
      (by intro s hs; simp at hs; subst hs; exact Or.inr (Or.inl rfl)) (by decide)
      (by decide) (by decide)
      (by intro s hs; simp at hs
          rcases hs with h | h | h | h <;> subst h <;> exact Or.inr rfl)

/-! ### Card parsing (C6, C8)

`_parse_job_card` exists twice: in the module
(`recommended_jobs.py:557-605`, single-selector fields, digit-regex id
fallback, footer-based flags) and in the sample script
(`scrape_recommended_jobs.py:798-994`, cascades per field, string-split id
fallback, whole-card-text flags). -/

/-- Regex `r'/view/(\d+)'` applied with `re.search`: leftmost position where
the literal `/view/` is followed by at least one digit; the digits are the
match group. -/
def findViewIdL : List Char → Option (List Char)
  | [] => none
  | c :: rest =>
    if startsSeq "/view/".toList (c :: rest) then
      let ds := (rest.drop 5).takeWhile Char.isDigit
      if ds = [] then findViewIdL rest else some ds
    else findViewIdL rest

/-- `re.search(r'/view/(\d+)', href)` returning the digit group. -/
def findViewIdStr (href : String) : Option String :=
  (findViewIdL href.toList).map String.mk

/-- A rendered list card as the *module* parser reads it.  `link` models
`locator('a.job-card-container__link, ...').first`: `none` means no match,
`some none` a link whose `href` attribute is `None` (feeding `None` to
`re.search` raises), `some (some h)` a link with href `h`.  The text fields
are the `.first` / `count() > 0` / `inner_text()` reads per selector. -/
structure MCard where
  dataJobId : Option String := none
  link : Option (Option String) := none
  titleText : Option String := none
  companyText : Option String := none
  locationText : Option String := none
  footerText : Option String := none
  hasApplyMethod : Bool := false

/-- The anchor-href fallback of the module id resolution; `.error` models
the `TypeError` from `re.search(pattern, None)`, which the card-level
`except` turns into a skipped card. -/
def mcardFallbackId (c : MCard) : Except Unit (Option String) :=
  match c.link with
  | none => .ok none
  | some none => .error ()
  | some (some href) => .ok (findViewIdStr href)

/-- Module id resolution: the structured `data-job-id` attribute if truthy,
else the `/view/(\d+)` anchor fallback. -/
def resolveJobIdModule (c : MCard) : Except Unit (Option String) :=
  match c.dataJobId with
  | some jid => if jid ≠ "" then .ok (some jid) else mcardFallbackId c
  | none => mcardFallbackId c

/-- The module `_parse_job_card`.  With no resolvable id the card yields
nothing.  When the footer item is missing (or strips to empty), the Python
code passes `None` (resp. `""`) for the boolean fields
`promoted`/`actively_hiring`; the pydantic `RecommendedJob` model rejects
both, the card-level `except` catches the `ValidationError`, and the card is
skipped — modelled as `none`. -/
def parseJobCardModule (collection : String) (c : MCard) : Option RecommendedJob :=
  match resolveJobIdModule c with
  | .error _ => none
  | .ok none => none
  | .ok (some jid) =>
    match c.footerText with
    | none => none
    | some ft =>
      let ftt := pyStrip ft
      if ftt = "" then none
      else
        some { job_id := jid
               job_url := "https://www.linkedin.com/jobs/view/" ++ jid ++ "/"
               collection := collection
               title := some (match c.titleText with
                 | some t => pyStrip t
                 | none => "Unknown Title")
               company := some (match c.companyText with
                 | some t => pyStrip t
                 | none => "Unknown Company")
               location := c.locationText.map pyStrip
               promoted := strContains ftt "Promoted"
               actively_hiring := strContains ftt "Actively recruiting"
               easy_apply := c.hasApplyMethod }

/-- A rendered list card as the *sample* parser reads it.  `viewLink` models
`locator('a[href*="/jobs/view/"]').first.get_attribute('href')` under its
bare `except: pass` (`none` = the lookup raised, e.g. nothing matched);
`query` feeds the per-field selector cascades; `cardText` is
`card.inner_text()` (`none` = raised, the code then uses `""`). -/
structure SCard where
  dataJobId : Option String := none
  viewLink : Option (Option String) := none
  query : String → QRes := fun _ => .absent
  timeText : Option String := none
  cardText : Option String := none
  easyApplyElem : Bool := false
  companyHref : Option (Option String) := none
  metaTexts : List String := []
  insight : QRes := .absent

/-- The sample id fallback on an href:
`href.split('/jobs/view/')[1].split('/')[0].split('?')[0]` when the split
yields a second part, `None` otherwise or when the segment is empty. -/
def sampleViewIdFromHref (href : String) : Option String :=
  match pySplit "/jobs/view/" href with
  | _ :: p1 :: _ =>
    let a := (pySplit "/" p1).headD ""
    let b := (pySplit "?" a).headD ""
    if b ≠ "" then some b else none
  | _ => none

/-- The sample anchor fallback including the raised-lookup and missing-href
cases. -/
def sampleViewFallback (c : SCard) : Option String :=
  match c.viewLink with
  | none => none
  | some none => none
  | some (some href) => sampleViewIdFromHref href

/-- Sample id resolution: structured attribute if truthy, else the
string-split anchor fallback. -/
def resolveJobIdSample (c : SCard) : Option String :=
  match c.dataJobId with
  | some jid => if jid ≠ "" then some jid else sampleViewFallback c
  | none => sampleViewFallback c

/-- The ordered company candidates of the sample `_parse_job_card`. -/
def sampleCompanySelectors : List String :=
  [".job-card-container__primary-description", ".artdeco-entity-lockup__subtitle",
   ".job-card-container__company-name", "[class*=\"company\"]",
   ".job-card-list__company-name"]

/-- The ordered location candidates of the sample `_parse_job_card`. -/
def sampleLocationSelectors : List String :=
  [".job-card-container__metadata-item", ".artdeco-entity-lockup__caption",
   "[class*=\"location\"]", ".job-card-list__location"]

/-- Employment-type keywords of the sample metadata classifier. -/
def employmentKeywords : List String :=
  ["full-time", "part-time", "contract", "internship", "temporary"]

/-- Workplace-type keywords of the sample metadata classifier. -/
def workplaceKeywords : List String :=
  ["remote", "on-site", "hybrid"]

/-- The sample metadata-fragment scan: each fragment is lowercased and
stripped, classified by keyword containment; a later match overwrites an
earlier one (the source loop has no `break`). -/
def classifyMeta (items : List String) : Option String × Option String :=
  items.foldl
    (fun p text =>
      let tl := pyStrip (pyLower text)
      if employmentKeywords.any (fun k => strContains tl k) then (some (pyStrip text), p.2)
      else if workplaceKeywords.any (fun k => strContains tl k) then (p.1, some (pyStrip text))
      else p)
    (none, none)

/-- The sample `_parse_job_card`: id resolution, per-field cascades, badge
flags by case-insensitive containment over the whole card text (with element
fallbacks for easy-apply and actively-hiring). -/
def parseJobCardSample (collection : String) (c : SCard) : Option RecommendedJob :=
  match resolveJobIdSample c with
  | none => none
  | some jid =>
    let ctext := (c.cardText).getD ""
    let lower := pyLower ctext
    let meta := classifyMeta c.metaTexts
    some { job_id := jid
           job_url := "https://www.linkedin.com/jobs/view/" ++ jid ++ "/"
           collection := collection
           title := sampleFieldLoop c.query sampleTitleSelectors none
           company := sampleFieldLoop c.query sampleCompanySelectors none
           company_url := (match c.companyHref with
             | some (some h) =>
               some (if pyStartsWith h "http" then h else "https://www.linkedin.com" ++ h)
             | _ => none)
           location := sampleFieldLoop c.query sampleLocationSelectors none
           posted_time := (match c.timeText with
             | some t => if t = "" then none else some (pyStrip t)
             | none => none)
           employment_type := meta.1
           workplace_type := meta.2
           promoted := strContains lower "promoted"
           easy_apply := strContains lower "easy apply" || c.easyApplyElem
           actively_hiring := strContains lower "actively reviewing" ||
             (match c.insight with
              | .elem t => strContains (pyLower t) "actively reviewing"
              | _ => false) }

/-- The card refuting the absent-guarantee of C6: no structured id, and an
anchor whose href segment after `/jobs/view/` is not a digit run. -/
def c6Card : SCard :=
  { dataJobId := none, viewLink := some (some "/jobs/view/x123/") }

/-- C6 (counterexample): `c6Card` has no structured id attribute and no
anchor matching `/view/<digits>` (the digit regex finds nothing in
`"/jobs/view/x123/"`), so by the claim the parser must return absent; the
sample parser nevertheless emits a record with id `"x123"`, the verbatim
path segment. -/
theorem c6_counterexample :
    c6Card.dataJobId = none ∧
    findViewIdStr "/jobs/view/x123/" = none ∧
    (parseJobCardSample "recommended" c6Card).map RecommendedJob.job_id =
      some "x123" := by
  refine ⟨rfl, by decide, by decide⟩

/-- C6 (amended): on the claim's example href both parsers resolve
`"123456789"`, and a card with the attribute absent and such an anchor
yields a module record carrying exactly the regex digits (when the card is
otherwise parseable, i.e. has a non-blank footer).  The absent-guarantee
holds as claimed for the module parser — no digits after `/view/` means the
card is dropped; for the sample parser it only holds when the raw segment
after `/jobs/view/` (cut at `/` and `?`) is empty, since that parser emits
the segment verbatim, digits or not. -/
theorem c6_id_resolution :
    (findViewIdStr "/jobs/view/123456789/?x=1" = some "123456789") ∧
    (sampleViewIdFromHref "/jobs/view/123456789/?x=1" = some "123456789") ∧
    (∀ (coll : String) (c : MCard) (h : String),
      c.dataJobId = none → c.link = some (some h) → findViewIdStr h = none →
      parseJobCardModule coll c = none) ∧
    (∀ (coll : String) (c : MCard) (h ds ft : String),
      c.dataJobId = none → c.link = some (some h) → findViewIdStr h = some ds →
      c.footerText = some ft → pyStrip ft ≠ "" →
      (parseJobCardModule coll c).map RecommendedJob.job_id = some ds) ∧
    (∀ (coll : String) (c : SCard) (h : String),
      c.dataJobId = none → c.viewLink = some (some h) → sampleViewIdFromHref h = none →
      parseJobCardSample coll c = none) := by
  refine ⟨by decide, by decide, ?_, ?_, ?_⟩
  · intro coll c h hid hlink hview
    simp [parseJobCardModule, resolveJobIdModule, mcardFallbackId, hid, hlink, hview]
  · intro coll c h ds ft hid hlink hview hft hftt
    simp [parseJobCardModule, resolveJobIdModule, mcardFallbackId,
      hid, hlink, hview, hft, hftt]
  · intro coll c h hid hlink hview
    simp [parseJobCardSample, resolveJobIdSample, sampleViewFallback, hid, hlink, hview]

/-- Witness card for C6: attribute absent, anchor href carrying digits, a
non-blank footer. -/
def c6WitCard : MCard :=
  { dataJobId := none, link := some (some "/jobs/view/555/"),
    footerText := some "Promoted" }

/-- C6 (witness): the amended theorem applied to `c6WitCard` — the module
parser emits a record whose id is the regex digits `"555"`. -/
theorem c6_witness :
    (parseJobCardModule "recommended" c6WitCard).map RecommendedJob.job_id =
      some "555" :=
  c6_id_resolution.2.2.2.1 "recommended" c6WitCard "/jobs/view/555/" "555" "Promoted"
    rfl rfl (by decide) rfl (by decide)

/-- The card refuting C8: the footer badge text is upper-cased. -/
def c8Card : MCard :=
  { dataJobId := some "77", footerText := some "PROMOTED" }

/-- C8 (counterexample): case-insensitive containment of `"promoted"` holds
in the footer text `"PROMOTED"`, so by the claim `is_promoted` must be true;
the module parser tests `"Promoted" in footer_text` case-sensitively and
yields `false`. -/
theorem c8_counterexample :
    strContains (pyLower "PROMOTED") "promoted" = true ∧
    (parseJobCardModule "recommended" c8Card).map RecommendedJob.promoted =
      some false := by
  exact ⟨by decide, by decide⟩

/-- C8 (amended): the sample parser matches the claim — every flag is a
case-insensitive containment check over the whole card text (with an
element-presence fallback for easy-apply and actively-hiring).  The module
parser instead tests `"Promoted"` and `"Actively recruiting"` by
*case-sensitive* containment in the first footer item's stripped text, and
computes `supports_expedited_apply` purely from the presence of the
apply-method element, not from text at all. -/
theorem c8_badge_flags :
    (∀ (coll : String) (c : MCard) (ft : String) (r : RecommendedJob),
      parseJobCardModule coll c = some r → c.footerText = some ft →
      r.promoted = strContains (pyStrip ft) "Promoted" ∧
      r.actively_hiring = strContains (pyStrip ft) "Actively recruiting" ∧
      r.easy_apply = c.hasApplyMethod) ∧
    (∀ (coll : String) (c : SCard) (r : RecommendedJob),
      parseJobCardSample coll c = some r →
      r.promoted = strContains (pyLower ((c.cardText).getD "")) "promoted" ∧
      r.easy_apply = (strContains (pyLower ((c.cardText).getD "")) "easy apply"
        || c.easyApplyElem) ∧
      r.actively_hiring =
        (strContains (pyLower ((c.cardText).getD "")) "actively reviewing" ||
          (match c.insight with
           | .elem t => strContains (pyLower t) "actively reviewing"
           | _ => false))) := by
  constructor
  · intro coll c ft r hr hft
    unfold parseJobCardModule at hr
    rw [hft] at hr
    rcases hres : resolveJobIdModule c with he | jid
    · rw [hres] at hr; simp at hr
    · rw [hres] at hr
      rcases jid with _ | jid
      · simp at hr
      · by_cases hftt : pyStrip ft = ""
        · simp [hftt] at hr
        · simp only [hftt, if_neg, ite_false, Option.some.injEq] at hr
          subst hr
          exact ⟨rfl, rfl, rfl⟩
  · intro coll c r hr
    unfold parseJobCardSample at hr
    rcases hres : resolveJobIdSample c with _ | jid
    · rw [hres] at hr; simp at hr
    · rw [hres] at hr
      simp only [Option.some.injEq] at hr
      subst hr
      exact ⟨rfl, rfl, rfl⟩

/-- Witness cards for C8: a module card with a mixed-case footer and a
sample card whose card text carries the badges in odd casing. -/
def c8WitCardM : MCard :=
  { dataJobId := some "9", footerText := some " Promoted easy ",
    hasApplyMethod := true }

/-- Sample-side witness card for C8. -/
def c8WitCardS : SCard :=
  { dataJobId := some "10", cardText := some "Senior Role PrOmOtEd EASY apply" }

/-- C8 (witness): the amended theorem applied to `c8WitCardM` and
`c8WitCardS`. -/
theorem c8_witness :
    ((parseJobCardModule "recommended" c8WitCardM).get (by decide)).promoted =
      strContains (pyStrip " Promoted easy ") "Promoted" ∧
    ((parseJobCardSample "recommended" c8WitCardS).get (by decide)).promoted =
      strContains (pyLower "Senior Role PrOmOtEd EASY apply") "promoted" := by
  constructor
  · exact (c8_badge_flags.1 "recommended" c8WitCardM " Promoted easy " _
      (Option.some_get (by decide)).symm rfl).1
  · exact (c8_badge_flags.2 "recommended" c8WitCardS _
      (Option.some_get (by decide)).symm).1

/-! ### The collection walker (C2, C3, C9)

`scrape` / `_scroll_and_extract_all_jobs` / `_extract_jobs_from_page` of
`recommended_jobs.py`.  The page environment is abstracted as, per page, a
function from extraction-attempt index to the list of currently locatable
cards (scrolling between attempts may surface more), and the walker is
generic in the card type and card parser (`self._parse_job_card`).  The two
`while` loops are embedded with an explicit iteration budget (`fuel`); the
budgets passed by the wrappers are proven sufficient (C9). -/

/-- `_extract_jobs_from_page(limit, seen_job_ids)`: walk the located cards,
stop once the quota is reached, skip unparseable cards and already-seen ids
(without recording new ids — in-page duplicates are filtered later). -/
def extractJobsFromPage {α : Type} (parse : α → Option RecommendedJob) :
    List α → Nat → List String → List RecommendedJob
  | [], _, _ => []
  | _ :: _, 0, _ => []
  | card :: cards, rem + 1, seen =>
    match parse card with
    | some j =>
      if j.job_id ∈ seen then extractJobsFromPage parse cards (rem + 1) seen
      else j :: extractJobsFromPage parse cards rem seen
    | none => extractJobsFromPage parse cards (rem + 1) seen

/-- The accumulation loop of `_scroll_and_extract_all_jobs`: append each new
record whose id is unseen while under the quota, recording its id. -/
def addNewJobs (limit : Nat) :
    List RecommendedJob → List RecommendedJob → List String →
    List RecommendedJob × List String
  | [], jobs, seen => (jobs, seen)
  | j :: rest, jobs, seen =>
    if j.job_id ∉ seen ∧ jobs.length < limit then
      addNewJobs limit rest (jobs ++ [j]) (j.job_id :: seen)
    else
      addNewJobs limit rest jobs seen

/-- The `while` loop of `_scroll_and_extract_all_jobs`, with the
consecutive-no-progress counter (bound 5) and the fallback-scroll counter
(`scrolls`, one per failed attempt); `none` = iteration budget exhausted
while the loop guard still holds (shown unreachable for the budget the
wrapper passes, theorem `c9_scroll_loop_terminates`). -/
def scrollLoopF {α : Type} (parse : α → Option RecommendedJob)
    (attempts : Nat → List α) (limit : Nat) :
    Nat → Nat → List RecommendedJob → List String → Nat → Nat →
    Option (List RecommendedJob × List String × Nat)
  | 0, _, jobs, seen, noNew, scrolls =>
    if jobs.length < limit ∧ noNew < 5 then none else some (jobs, seen, scrolls)
  | fuel + 1, t, jobs, seen, noNew, scrolls =>
    if jobs.length < limit ∧ noNew < 5 then
      if (addNewJobs limit (extractJobsFromPage parse (attempts t) limit seen) jobs seen).1.length
          = jobs.length then
        scrollLoopF parse attempts limit fuel (t + 1)
          (addNewJobs limit (extractJobsFromPage parse (attempts t) limit seen) jobs seen).1
          (addNewJobs limit (extractJobsFromPage parse (attempts t) limit seen) jobs seen).2
          (noNew + 1) (scrolls + 1)
      else
        scrollLoopF parse attempts limit fuel (t + 1)
          (addNewJobs limit (extractJobsFromPage parse (attempts t) limit seen) jobs seen).1
          (addNewJobs limit (extractJobsFromPage parse (attempts t) limit seen) jobs seen).2
          0 scrolls
    else some (jobs, seen, scrolls)

/-- Detail enrichment of one record (`scrape`'s `fetch_details` branch):
`_fetch_job_details(job.job_id)` either yields the detail dictionary, whose
three fields are copied onto the record, or fails (`None` / a caught
exception), leaving the record unchanged.  Only the three detail fields are
written; the id is untouched. -/
def applyDetails (denv : String → Option JobDetails) (j : RecommendedJob) :
    RecommendedJob :=
  match denv j.job_id with
  | some d => { j with description := d.description, hiring_team := d.hiring_team,
                       match_analysis := d.match_analysis }
  | none => j

/-- The page-state sequence: page `i` of the walk (0-indexed), or an empty
page beyond the environment. -/
def pageAt {α : Type} (pages : List (Nat → List α)) (i : Nat) : Nat → List α :=
  pages.getD i (fun _ => [])

/-- The outer `while` loop of `scrape`: extract the current page with the
remaining quota, stop on an empty page, optionally enrich with details,
accumulate records and ids, paginate while under limit and `max_pages` and a
next page exists; `none` = page budget exhausted (the wrapper passes
`max_pages + 1`, which theorem `scrapeLoopF_fuel_le` shows is never
exhausted via `getD`; the loop advances `curPage` each round). -/
def scrapeLoopF {α : Type} (parse : α → Option RecommendedJob)
    (pages : List (Nat → List α)) (denv : String → Option JobDetails)
    (fetchDetails : Bool) (limit maxPages : Nat) :
    Nat → Nat → List RecommendedJob → List String → Option (List RecommendedJob)
  | 0, curPage, allJobs, _ =>
    if allJobs.length < limit ∧ curPage ≤ maxPages then none else some allJobs
  | fuel + 1, curPage, allJobs, seen =>
    if allJobs.length < limit ∧ curPage ≤ maxPages then
      match scrollLoopF parse (pageAt pages (curPage - 1)) (limit - allJobs.length)
          ((limit - allJobs.length) * 5 + 5) 0 [] seen 0 0 with
      | none => none
      | some (jobsOnPage0, seen', _) =>
        if jobsOnPage0 = [] then some allJobs
        else
          if limit ≤ (allJobs ++ (if fetchDetails then jobsOnPage0.map (applyDetails denv)
              else jobsOnPage0)).length then
            some (allJobs ++ (if fetchDetails then jobsOnPage0.map (applyDetails denv)
              else jobsOnPage0))
          else if curPage < pages.length then
            scrapeLoopF parse pages denv fetchDetails limit maxPages fuel (curPage + 1)
              (allJobs ++ (if fetchDetails then jobsOnPage0.map (applyDetails denv)
                else jobsOnPage0))
              (((if fetchDetails then jobsOnPage0.map (applyDetails denv) else jobsOnPage0)).foldl
                (fun s j => j.job_id :: s) seen')
          else
            some (allJobs ++ (if fetchDetails then jobsOnPage0.map (applyDetails denv)
              else jobsOnPage0))
    else some allJobs

/-- `JobCollectionScraper.scrape(limit, max_pages, fetch_details)` over a
page environment: run the paginated walk from page 1 with empty accumulator
and empty seen-id set, then truncate to the limit (`all_jobs[:limit]`). -/
def scrape {α : Type} (parse : α → Option RecommendedJob)
    (pages : List (Nat → List α)) (denv : String → Option JobDetails)
    (fetchDetails : Bool) (limit maxPages : Nat) : List RecommendedJob :=
  ((scrapeLoopF parse pages denv fetchDetails limit maxPages (maxPages + 1) 1 [] []).getD
    []).take limit

/-- `addNewJobs` never drops accumulated records. -/
theorem addNewJobs_length_ge (limit : Nat) (new jobs : List RecommendedJob)
    (seen : List String) :
    jobs.length ≤ (addNewJobs limit new jobs seen).1.length := by
  induction new generalizing jobs seen with
  | nil => simp [addNewJobs]
  | cons j rest ih =>
    by_cases h : j.job_id ∉ seen ∧ jobs.length < limit
    · calc jobs.length ≤ (jobs ++ [j]).length := by simp
        _ ≤ _ := by simpa [addNewJobs, h] using ih (jobs ++ [j]) (j.job_id :: seen)
    · simpa [addNewJobs, h] using ih jobs seen

/-- `addNewJobs` respects the quota: it appends only while strictly under
the limit. -/
theorem addNewJobs_length_le_max (limit : Nat) (new jobs : List RecommendedJob)
    (seen : List String) :
    (addNewJobs limit new jobs seen).1.length ≤ max jobs.length limit := by
  induction new generalizing jobs seen with
  | nil => simp [addNewJobs]
  | cons j rest ih =>
    by_cases h : j.job_id ∉ seen ∧ jobs.length < limit
    · have := ih (jobs ++ [j]) (j.job_id :: seen)
      have hle : max (jobs ++ [j]).length limit ≤ max jobs.length limit := by
        simp only [List.length_append, List.length_singleton]
        omega
      simpa [addNewJobs, h] using le_trans this hle
    · simpa [addNewJobs, h] using ih jobs seen

/-- C9: the inner extraction loop terminates within an explicit budget.
Each iteration either strictly grows the collected list — which stays
bounded by the page quota — or increments the consecutive-no-progress
counter (performing exactly one fallback scroll), so after at most
`(limit - jobs.length) * 5 + (5 - noNew)` iterations the loop stops, with
the quota filled or five consecutive fruitless attempts; the fueled loop
returns a result (never exhausts) whenever its budget covers that measure,
and the result never exceeds the quota. -/
theorem c9_scroll_loop_terminates {α : Type} (parse : α → Option RecommendedJob)
    (attempts : Nat → List α) (limit fuel t : Nat) (jobs : List RecommendedJob)
    (seen : List String) (noNew scrolls : Nat)
    (hfuel : (limit - jobs.length) * 5 + (5 - noNew) ≤ fuel) :
    ∃ out, scrollLoopF parse attempts limit fuel t jobs seen noNew scrolls = some out ∧
      out.1.length ≤ max jobs.length limit := by
  induction fuel generalizing t jobs seen noNew scrolls with
  | zero =>
    by_cases hg : jobs.length < limit ∧ noNew < 5
    · exact absurd hfuel (by omega)
    · exact ⟨(jobs, seen, scrolls), by simp [scrollLoopF, hg], le_max_left _ _⟩
  | succ fuel ih =>
    by_cases hg : jobs.length < limit ∧ noNew < 5
    · have hge := addNewJobs_length_ge limit
        (extractJobsFromPage parse (attempts t) limit seen) jobs seen
      have hle := addNewJobs_length_le_max limit
        (extractJobsFromPage parse (attempts t) limit seen) jobs seen
      by_cases heq : (addNewJobs limit (extractJobsFromPage parse (attempts t) limit seen)
          jobs seen).1.length = jobs.length
      · have hf : (limit - (addNewJobs limit
            (extractJobsFromPage parse (attempts t) limit seen) jobs seen).1.length) * 5 +
            (5 - (noNew + 1)) ≤ fuel := by rw [heq]; omega
        obtain ⟨out, hout, hb⟩ := ih (t + 1) _ _ (noNew + 1) (scrolls + 1) hf
        refine ⟨out, ?_, ?_⟩
        · simpa [scrollLoopF, hg, heq] using hout
        · rw [heq] at hb; exact hb
      · have hmax : max jobs.length limit = limit := by omega
        have hf : (limit - (addNewJobs limit
            (extractJobsFromPage parse (attempts t) limit seen) jobs seen).1.length) * 5 +
            (5 - 0) ≤ fuel := by
          rw [hmax] at hle
          omega
        obtain ⟨out, hout, hb⟩ := ih (t + 1) _ _ 0 scrolls hf
        refine ⟨out, ?_, ?_⟩
        · simpa [scrollLoopF, hg, heq] using hout
        · rw [hmax] at hle ⊢
          omega
    · exact ⟨(jobs, seen, scrolls), by simp [scrollLoopF, hg], le_max_left _ _⟩

/-- C9 (witness): the termination theorem applied to a concrete page that
keeps showing the same single card: the loop with budget 20 for quota 3
returns a result within the quota. -/
theorem c9_witness :
    ∃ out, scrollLoopF (parseJobCardModule "recommended")
        (fun _ => [{ dataJobId := some "1", footerText := some "x" }]) 3
        20 0 [] [] 0 0 = some out ∧
      out.1.length ≤ max ([] : List RecommendedJob).length 3 :=
  c9_scroll_loop_terminates (parseJobCardModule "recommended")
    (fun _ => [{ dataJobId := some "1", footerText := some "x" }]) 3 20 0 [] [] 0 0
    (by decide)

/-- The outer page loop never exhausts the `max_pages + 1` budget `scrape`
passes: each continuing round advances the page counter, which the guard
bounds by `max_pages`, and the inner loop's budget is sufficient by
`c9_scroll_loop_terminates`. -/
theorem scrapeLoopF_fuel_le {α : Type} (parse : α → Option RecommendedJob)
    (pages : List (Nat → List α)) (denv : String → Option JobDetails)
    (fd : Bool) (limit maxPages : Nat) (fuel curPage : Nat)
    (allJobs : List RecommendedJob) (seen : List String)
    (h : maxPages + 2 - curPage ≤ fuel) :
    (scrapeLoopF parse pages denv fd limit maxPages fuel curPage allJobs seen).isSome := by
  induction fuel generalizing curPage allJobs seen with
  | zero =>
    by_cases hg : allJobs.length < limit ∧ curPage ≤ maxPages
    · exact absurd h (by omega)
    · simp [scrapeLoopF, hg]
  | succ fuel ih =>
    by_cases hg : allJobs.length < limit ∧ curPage ≤ maxPages
    · obtain ⟨⟨jop0, seen', k⟩, hout, _⟩ := c9_scroll_loop_terminates parse
        (pageAt pages (curPage - 1)) (limit - allJobs.length)
        ((limit - allJobs.length) * 5 + 5) 0 [] seen 0 0 (by omega)
      by_cases h0 : jop0 = []
      · simp [scrapeLoopF, hg, hout, h0]
      · by_cases hlim : limit ≤
            allJobs.length + (if fd then jop0.map (applyDetails denv) else jop0).length
        · simp [scrapeLoopF, hg, hout, h0, hlim]
        · by_cases hnext : curPage < pages.length
          · have := ih (curPage + 1)
              (allJobs ++ (if fd then jop0.map (applyDetails denv) else jop0))
              ((if fd then jop0.map (applyDetails denv) else jop0).foldl
                (fun s j => j.job_id :: s) seen')
              (by omega)
            simpa [scrapeLoopF, hg, hout, h0, hlim, hnext] using this
          · simp [scrapeLoopF, hg, hout, h0, hlim, hnext]
    · simp [scrapeLoopF, hg]

/-- Dedup invariant of the accumulation loop: collected ids are recorded,
pairwise distinct, and never from the protected set `seen0` (a subset of the
recorded ids); the recorded set only grows. -/
theorem addNewJobs_invariant (limit : Nat) (new jobs : List RecommendedJob)
    (seen seen0 : List String)
    (h1 : ∀ j ∈ jobs, j.job_id ∈ seen)
    (h2 : (jobs.map RecommendedJob.job_id).Nodup)
    (h3 : ∀ s ∈ seen0, s ∈ seen)
    (h4 : ∀ j ∈ jobs, j.job_id ∉ seen0) :
    (∀ j ∈ (addNewJobs limit new jobs seen).1, j.job_id ∈ (addNewJobs limit new jobs seen).2) ∧
    ((addNewJobs limit new jobs seen).1.map RecommendedJob.job_id).Nodup ∧
    (∀ s ∈ seen0, s ∈ (addNewJobs limit new jobs seen).2) ∧
    (∀ j ∈ (addNewJobs limit new jobs seen).1, j.job_id ∉ seen0) ∧
    (∀ s ∈ seen, s ∈ (addNewJobs limit new jobs seen).2) := by
  induction new generalizing jobs seen with
  | nil => exact ⟨h1, h2, h3, h4, fun s hs => hs⟩
  | cons j rest ih =>
    by_cases h : j.job_id ∉ seen ∧ jobs.length < limit
    · have h1' : ∀ x ∈ jobs ++ [j], x.job_id ∈ j.job_id :: seen := by
        intro x hx
        rcases List.mem_append.mp hx with hx | hx
        · exact List.mem_cons_of_mem _ (h1 x hx)
        · simp at hx; subst hx; exact List.mem_cons_self _ _
      have h2' : ((jobs ++ [j]).map RecommendedJob.job_id).Nodup := by
        rw [List.map_append]
        rw [List.nodup_append]
        refine ⟨h2, List.nodup_singleton _, ?_⟩
        intro x hx hx'
        simp at hx'
        rcases List.mem_map.mp hx with ⟨y, hy, hxy⟩
        exact h.1 (hx' ▸ hxy ▸ h1 y hy)
      have h3' : ∀ s ∈ seen0, s ∈ j.job_id :: seen :=
        fun s hs => List.mem_cons_of_mem _ (h3 s hs)
      have h4' : ∀ x ∈ jobs ++ [j], x.job_id ∉ seen0 := by
        intro x hx
        rcases List.mem_append.mp hx with hx | hx
        · exact h4 x hx
        · simp at hx; subst hx; exact fun hc => h.1 (h3 _ hc)
      have := ih (jobs ++ [j]) (j.job_id :: seen) h1' h2' h3' h4'
      refine ⟨?_, ?_, ?_, ?_, ?_⟩ <;>
        simp only [addNewJobs, if_pos h] <;>
        first
          | exact this.1
          | exact this.2.1
          | exact this.2.2.1
          | exact this.2.2.2.1
          | exact fun s hs => this.2.2.2.2 s (List.mem_cons_of_mem _ hs)
    · have := ih jobs seen h1 h2 h3 h4
      refine ⟨?_, ?_, ?_, ?_, ?_⟩ <;>
        simp only [addNewJobs, if_neg h] <;>
        first
          | exact this.1
          | exact this.2.1
          | exact this.2.2.1
          | exact this.2.2.2.1
          | exact this.2.2.2.2

/-- Dedup invariant of the scroll/extract loop, threaded through every
iteration: on any successful exit the per-page records carry recorded,
pairwise-distinct ids avoiding the protected set, and the seen set grows
monotonically. -/
theorem scrollLoopF_invariant {α : Type} (parse : α → Option RecommendedJob)
    (attempts : Nat → List α) (limit : Nat) (fuel t : Nat)
    (jobs : List RecommendedJob) (seen seen0 : List String) (noNew scrolls : Nat)
    (h1 : ∀ j ∈ jobs, j.job_id ∈ seen)
    (h2 : (jobs.map RecommendedJob.job_id).Nodup)
    (h3 : ∀ s ∈ seen0, s ∈ seen)
    (h4 : ∀ j ∈ jobs, j.job_id ∉ seen0) :
    ∀ out, scrollLoopF parse attempts limit fuel t jobs seen noNew scrolls = some out →
      (∀ j ∈ out.1, j.job_id ∈ out.2.1) ∧
      (out.1.map RecommendedJob.job_id).Nodup ∧
      (∀ s ∈ seen0, s ∈ out.2.1) ∧
      (∀ j ∈ out.1, j.job_id ∉ seen0) ∧
      (∀ s ∈ seen, s ∈ out.2.1) := by
  induction fuel generalizing t jobs seen noNew scrolls with
  | zero =>
    intro out hout
    by_cases hg : jobs.length < limit ∧ noNew < 5
    · simp [scrollLoopF, hg] at hout
    · simp [scrollLoopF, hg] at hout
      subst hout
      exact ⟨h1, h2, h3, h4, fun s hs => hs⟩
  | succ fuel ih =>
    intro out hout
    by_cases hg : jobs.length < limit ∧ noNew < 5
    · have hinv := addNewJobs_invariant limit
        (extractJobsFromPage parse (attempts t) limit seen) jobs seen seen0 h1 h2 h3 h4
      by_cases heq : (addNewJobs limit (extractJobsFromPage parse (attempts t) limit seen)
          jobs seen).1.length = jobs.length
      · simp only [scrollLoopF, if_pos hg, if_pos heq] at hout
        have := ih (t + 1) _ _ (noNew + 1) (scrolls + 1)
          hinv.1 hinv.2.1 hinv.2.2.1 hinv.2.2.2.1 out hout
        exact ⟨this.1, this.2.1, this.2.2.1, this.2.2.2.1,
          fun s hs => this.2.2.2.2 s (hinv.2.2.2.2 s hs)⟩
      · simp only [scrollLoopF, if_pos hg, if_neg heq] at hout
        have := ih (t + 1) _ _ 0 scrolls
          hinv.1 hinv.2.1 hinv.2.2.1 hinv.2.2.2.1 out hout
        exact ⟨this.1, this.2.1, this.2.2.1, this.2.2.2.1,
          fun s hs => this.2.2.2.2 s (hinv.2.2.2.2 s hs)⟩
    · simp [scrollLoopF, hg] at hout
      subst hout
      exact ⟨h1, h2, h3, h4, fun s hs => hs⟩

/-- Detail enrichment never changes a record's id. -/
theorem applyDetails_job_id (denv : String → Option JobDetails) (j : RecommendedJob) :
    (applyDetails denv j).job_id = j.job_id := by
  unfold applyDetails
  cases denv j.job_id <;> rfl

/-- Detail enrichment of a page preserves the id sequence. -/
theorem map_applyDetails_ids (denv : String → Option JobDetails)
    (l : List RecommendedJob) :
    (l.map (applyDetails denv)).map RecommendedJob.job_id =
      l.map RecommendedJob.job_id := by
  induction l with
  | nil => rfl
  | cons j rest ih => simp [applyDetails_job_id, ih]

/-- The post-page id registration (`for job in jobs_on_page: seen.add(...)`)
only adds ids. -/
theorem foldl_cons_mem (l : List RecommendedJob) (seen : List String) (s : String)
    (hs : s ∈ seen) : s ∈ l.foldl (fun acc j => j.job_id :: acc) seen := by
  induction l generalizing seen with
  | nil => exact hs
  | cons j rest ih => exact ih _ (List.mem_cons_of_mem _ hs)

/-- Dedup invariant of the outer page loop: accumulated ids are recorded and
pairwise distinct, so any successful exit is duplicate-free. -/
theorem scrapeLoopF_nodup {α : Type} (parse : α → Option RecommendedJob)
    (pages : List (Nat → List α)) (denv : String → Option JobDetails)
    (fd : Bool) (limit maxPages : Nat) (fuel curPage : Nat)
    (allJobs : List RecommendedJob) (seen : List String)
    (h1 : ∀ j ∈ allJobs, j.job_id ∈ seen)
    (h2 : (allJobs.map RecommendedJob.job_id).Nodup) :
    ∀ out, scrapeLoopF parse pages denv fd limit maxPages fuel curPage allJobs seen = some out →
      (out.map RecommendedJob.job_id).Nodup := by
  induction fuel generalizing curPage allJobs seen with
  | zero =>
    intro out hout
    by_cases hg : allJobs.length < limit ∧ curPage ≤ maxPages
    · simp [scrapeLoopF, hg] at hout
    · simp [scrapeLoopF, hg] at hout
      exact hout ▸ h2
  | succ fuel ih =>
    intro out hout
    by_cases hg : allJobs.length < limit ∧ curPage ≤ maxPages
    · rcases hpr : scrollLoopF parse (pageAt pages (curPage - 1)) (limit - allJobs.length)
          ((limit - allJobs.length) * 5 + 5) 0 [] seen 0 0 with _ | ⟨jop0, seen', k⟩
      · simp only [scrapeLoopF, if_pos hg, hpr] at hout
        exact Option.noConfusion hout
      · have hinv := scrollLoopF_invariant parse (pageAt pages (curPage - 1))
          (limit - allJobs.length) ((limit - allJobs.length) * 5 + 5) 0 [] seen seen 0 0
          (by simp) (by simp) (fun s hs => hs) (by simp) (jop0, seen', k) hpr
        have hjopids : ((if fd then jop0.map (applyDetails denv) else jop0).map
            RecommendedJob.job_id) = jop0.map RecommendedJob.job_id := by
          cases fd <;> simp [map_applyDetails_ids, applyDetails_job_id]
        have hnodup' : ((allJobs ++ (if fd then jop0.map (applyDetails denv) else jop0)).map
            RecommendedJob.job_id).Nodup := by
          rw [List.map_append, List.nodup_append, hjopids]
          refine ⟨h2, hinv.2.1, ?_⟩
          intro x hx hx'
          rcases List.mem_map.mp hx with ⟨y, hy, hxy⟩
          rcases List.mem_map.mp hx' with ⟨z, hz, hxz⟩
          exact hinv.2.2.2.1 z hz (hxz ▸ hxy ▸ h1 y hy)
        by_cases h0 : jop0 = []
        · simp only [scrapeLoopF, if_pos hg, hpr, if_pos h0] at hout
          exact (Option.some.inj hout) ▸ h2
        · by_cases hlim : limit ≤
              allJobs.length + (if fd then jop0.map (applyDetails denv) else jop0).length
          · simp only [scrapeLoopF, if_pos hg, hpr, if_neg h0, List.length_append] at hout
            rw [if_pos hlim] at hout
            exact (Option.some.inj hout) ▸ hnodup'
          · by_cases hnext : curPage < pages.length
            · simp only [scrapeLoopF, if_pos hg, hpr, if_neg h0, List.length_append] at hout
              rw [if_neg hlim, if_pos hnext] at hout
              refine ih (curPage + 1) _ _ ?_ hnodup' out hout
              intro j hj
              rcases List.mem_append.mp hj with hj | hj
              · exact foldl_cons_mem _ _ _ (hinv.2.2.2.2 _ (h1 j hj))
              · have hjid : j.job_id ∈ jop0.map RecommendedJob.job_id := by
                  have : j.job_id ∈ (if fd then jop0.map (applyDetails denv) else jop0).map
                      RecommendedJob.job_id := List.mem_map_of_mem _ hj
                  rwa [hjopids] at this
                rcases List.mem_map.mp hjid with ⟨z, hz, hxz⟩
                exact foldl_cons_mem _ _ _ (hxz ▸ hinv.1 z hz)
            · simp only [scrapeLoopF, if_pos hg, hpr, if_neg h0, List.length_append] at hout
              rw [if_neg hlim, if_neg hnext] at hout
              exact (Option.some.inj hout) ▸ hnodup'
    · simp [scrapeLoopF, hg] at hout
      exact hout ▸ h2

/-- For every page environment, card parser, detail environment, limit and
page bound, the ids of the records `scrape` returns are pairwise distinct:
the seen-identifier set is threaded through every extraction attempt of
every page of the whole walk. -/
theorem scrape_ids_nodup {α : Type} (parse : α → Option RecommendedJob)
    (pages : List (Nat → List α)) (denv : String → Option JobDetails)
    (fd : Bool) (limit maxPages : Nat) :
    ((scrape parse pages denv fd limit maxPages).map RecommendedJob.job_id).Nodup := by
  unfold scrape
  rcases hres : scrapeLoopF parse pages denv fd limit maxPages (maxPages + 1) 1 [] []
    with _ | out
  · simp
  · have := scrapeLoopF_nodup parse pages denv fd limit maxPages (maxPages + 1) 1 [] []
      (by simp) (by simp) out hres
    simp only [Option.getD_some]
    rw [List.map_take]
    exact this.sublist (List.take_sublist _ _)

/-- With an empty seen set, per-page extraction is exactly the quota-capped
parse stream: page order, then within-page card order. -/
theorem extractJobsFromPage_empty_seen {α : Type} (parse : α → Option RecommendedJob)
    (cards : List α) (limit : Nat) :
    extractJobsFromPage parse cards limit [] = (cards.filterMap parse).take limit := by
  induction cards generalizing limit with
  | nil => simp [extractJobsFromPage]
  | cons c cs ih =>
    cases limit with
    | zero => simp [extractJobsFromPage]
    | succ rem =>
      cases hp : parse c with
      | none => simp [extractJobsFromPage, hp, ih]
      | some j => simp [extractJobsFromPage, hp, ih]

/-- When the incoming records are pairwise distinct, unseen, and fit in the
remaining quota, the accumulation loop appends all of them in order. -/
theorem addNewJobs_takes_all (limit : Nat) (new jobs : List RecommendedJob)
    (seen : List String)
    (hnodup : (new.map RecommendedJob.job_id).Nodup)
    (hfresh : ∀ j ∈ new, j.job_id ∉ seen)
    (hlen : jobs.length + new.length ≤ limit) :
    (addNewJobs limit new jobs seen).1 = jobs ++ new := by
  induction new generalizing jobs seen with
  | nil => simp [addNewJobs]
  | cons j rest ih =>
    rw [List.map_cons, List.nodup_cons] at hnodup
    have hcond : j.job_id ∉ seen ∧ jobs.length < limit :=
      ⟨hfresh j (List.mem_cons_self _ _), by simp at hlen; omega⟩
    have hfresh' : ∀ x ∈ rest, x.job_id ∉ j.job_id :: seen := by
      intro x hx
      rw [List.mem_cons]
      rintro (h | h)
      · exact hnodup.1 (h ▸ List.mem_map_of_mem _ hx)
      · exact hfresh x (List.mem_cons_of_mem _ hx) h
    have hlen' : (jobs ++ [j]).length + rest.length ≤ limit := by
      simp at hlen ⊢; omega
    have := ih (jobs ++ [j]) (j.job_id :: seen) hnodup.2 hfresh' hlen'
    simp only [addNewJobs, if_pos hcond, this]
    simp

/-- The scroll loop halts as soon as its guard fails, whatever the budget. -/
theorem scrollLoopF_exit {α : Type} (parse : α → Option RecommendedJob)
    (attempts : Nat → List α) (limit fuel t : Nat) (jobs : List RecommendedJob)
    (seen : List String) (noNew scrolls : Nat)
    (hg : ¬(jobs.length < limit ∧ noNew < 5)) :
    scrollLoopF parse attempts limit fuel t jobs seen noNew scrolls =
      some (jobs, seen, scrolls) := by
  cases fuel <;> simp [scrollLoopF, hg]

/-- One productive iteration of the scroll loop. -/
theorem scrollLoopF_progress {α : Type} (parse : α → Option RecommendedJob)
    (attempts : Nat → List α) (limit fuel t : Nat) (jobs : List RecommendedJob)
    (seen : List String) (noNew scrolls : Nat)
    (hg : jobs.length < limit ∧ noNew < 5)
    (hne : ¬((addNewJobs limit (extractJobsFromPage parse (attempts t) limit seen)
        jobs seen).1.length = jobs.length)) :
    scrollLoopF parse attempts limit (fuel + 1) t jobs seen noNew scrolls =
      scrollLoopF parse attempts limit fuel (t + 1)
        (addNewJobs limit (extractJobsFromPage parse (attempts t) limit seen) jobs seen).1
        (addNewJobs limit (extractJobsFromPage parse (attempts t) limit seen) jobs seen).2
        0 scrolls := by
  simp [scrollLoopF, hg, hne]

/-- When the first extraction attempt already yields at least the page quota
of distinct fresh records, the scroll loop fills the quota in one pass and
returns the first `limit` records of that attempt's parse stream. -/
theorem scrollLoopF_first_page_fill {α : Type} (parse : α → Option RecommendedJob)
    (attempts : Nat → List α) (limit : Nat) (hpos : 1 ≤ limit)
    (hlen : limit ≤ ((attempts 0).filterMap parse).length)
    (hnodup : (((attempts 0).filterMap parse).map RecommendedJob.job_id).Nodup) :
    ∃ sn, scrollLoopF parse attempts limit (limit * 5 + 5) 0 [] [] 0 0 =
      some (((attempts 0).filterMap parse).take limit, sn, 0) := by
  have hextract : extractJobsFromPage parse (attempts 0) limit [] =
      ((attempts 0).filterMap parse).take limit :=
    extractJobsFromPage_empty_seen parse (attempts 0) limit
  have htlen : (((attempts 0).filterMap parse).take limit).length = limit := by
    rw [List.length_take]; omega
  have htnodup : ((((attempts 0).filterMap parse).take limit).map
      RecommendedJob.job_id).Nodup := by
    rw [List.map_take]; exact hnodup.sublist (List.take_sublist _ _)
  have hadd : (addNewJobs limit (((attempts 0).filterMap parse).take limit) [] []).1 =
      ((attempts 0).filterMap parse).take limit := by
    have := addNewJobs_takes_all limit (((attempts 0).filterMap parse).take limit) [] []
      htnodup (by simp) (by simp [htlen])
    simpa using this
  refine ⟨(addNewJobs limit (((attempts 0).filterMap parse).take limit) [] []).2, ?_⟩
  rw [show limit * 5 + 5 = (limit * 5 + 4) + 1 from rfl]
  rw [scrollLoopF_progress parse attempts limit (limit * 5 + 4) 0 [] [] 0 0
    ⟨by simpa using hpos, by omega⟩
    (by rw [hextract, hadd, htlen]; simp; omega)]
  rw [hextract]
  rw [scrollLoopF_exit parse attempts limit (limit * 5 + 4) 1 _ _ 0 0
    (by rw [hadd, htlen]; simp)]
  rw [hadd]

/-- C2 (amended): limit truncation holds whenever the requested records are
reachable within the visited pages — in particular, whenever the first
extraction attempt on page 1 already yields more than `n` distinct
well-formed records, `scrape` with `limit = n ≥ 1` returns exactly the first
`n` records of the extraction order (detail-enriched when requested), for
*every* `max_pages ≥ 1`. -/
theorem c2_limit_truncation {α : Type} (parse : α → Option RecommendedJob)
    (pages : List (Nat → List α)) (denv : String → Option JobDetails) (fd : Bool)
    (n maxPages : Nat) (hn : 1 ≤ n) (hmp : 1 ≤ maxPages)
    (hlen : n < ((pageAt pages 0 0).filterMap parse).length)
    (hnodup : (((pageAt pages 0 0).filterMap parse).map RecommendedJob.job_id).Nodup) :
    scrape parse pages denv fd n maxPages =
      (if fd then (((pageAt pages 0 0).filterMap parse).take n).map (applyDetails denv)
       else ((pageAt pages 0 0).filterMap parse).take n) ∧
    (scrape parse pages denv fd n maxPages).length = n := by
  have htlen : (((pageAt pages 0 0).filterMap parse).take n).length = n := by
    rw [List.length_take]; omega
  obtain ⟨sn, hfill⟩ := scrollLoopF_first_page_fill parse (pageAt pages 0) n hn
    (le_of_lt hlen) hnodup
  have hmlen : (if fd then (((pageAt pages 0 0).filterMap parse).take n).map
      (applyDetails denv) else ((pageAt pages 0 0).filterMap parse).take n).length = n := by
    cases fd <;> simpa using htlen
  have htake_ne : ((pageAt pages 0 0).filterMap parse).take n ≠ [] := by
    intro hc
    rw [hc] at htlen
    simp at htlen
    omega
  have hmain : scrapeLoopF parse pages denv fd n maxPages (maxPages + 1) 1 [] [] =
      some (if fd then (((pageAt pages 0 0).filterMap parse).take n).map (applyDetails denv)
            else ((pageAt pages 0 0).filterMap parse).take n) := by
    simp only [scrapeLoopF]
    rw [if_pos (⟨by simpa using hn, hmp⟩ :
      ([] : List RecommendedJob).length < n ∧ 1 ≤ maxPages)]
    simp only [List.length_nil, Nat.sub_zero, show (1 : Nat) - 1 = 0 from rfl, hfill,
      List.nil_append]
    rw [if_neg htake_ne]
    rw [if_pos (le_of_eq hmlen.symm)]
  unfold scrape
  rw [hmain]
  simp only [Option.getD_some]
  refine ⟨?_, ?_⟩
  · exact List.take_of_length_le (le_of_eq hmlen)
  · rw [List.length_take, hmlen]; omega

/-- Page-1 card of the C2 counterexample environment. -/
def c2Card1 : MCard := { dataJobId := some "1", footerText := some "x" }

/-- First page-2 card of the C2 counterexample environment. -/
def c2Card2 : MCard := { dataJobId := some "2", footerText := some "x" }

/-- Second page-2 card of the C2 counterexample environment. -/
def c2Card3 : MCard := { dataJobId := some "3", footerText := some "x" }

/-- The C2 counterexample environment: one record on page 1, two more on
page 2. -/
def c2Pages : List (Nat → List MCard) :=
  [fun _ => [c2Card1], fun _ => [c2Card2, c2Card3]]

/-- C2 (counterexample): the source can produce three distinct well-formed
records (more than `n = 2`), but with `max_pages = 1` the walk never reaches
page 2 and returns one record, not two — the claimed count is *not*
independent of `max_pages` when the extra records sit on later pages. -/
theorem c2_counterexample :
    ((([c2Card1, c2Card2, c2Card3].filterMap (parseJobCardModule "recommended")).length = 3) ∧
      (([c2Card1, c2Card2, c2Card3].filterMap
        (parseJobCardModule "recommended")).map RecommendedJob.job_id).Nodup) ∧
    (scrape (parseJobCardModule "recommended") c2Pages (fun _ => none) false 2 1).length
      = 1 := by
  refine ⟨⟨by decide, by decide⟩, by decide⟩

/-- Witness page for C2: three distinct records, all on page 1. -/
def c2WitPages : List (Nat → List MCard) :=
  [fun _ => [c2Card1, c2Card2, c2Card3]]

/-- C2 (witness): the amended theorem applied to `c2WitPages` with
`limit = 2` and `max_pages = 7`. -/
theorem c2_witness :
    scrape (parseJobCardModule "recommended") c2WitPages (fun _ => none) false 2 7 =
      (if false then (((pageAt c2WitPages 0 0).filterMap
          (parseJobCardModule "recommended")).take 2).map (applyDetails (fun _ => none))
       else ((pageAt c2WitPages 0 0).filterMap
          (parseJobCardModule "recommended")).take 2) ∧
    (scrape (parseJobCardModule "recommended") c2WitPages (fun _ => none) false 2 7).length
      = 2 :=
  c2_limit_truncation (parseJobCardModule "recommended") c2WitPages (fun _ => none) false
    2 7 (by decide) (by decide) (by decide) (by decide)

/-! ### Detail expansion (C7)

`_fetch_job_details` opens a record's detail view and runs three
independent extractions (`_extract_job_description`,
`_extract_hiring_team`, `_extract_match_analysis`), each wrapped in its own
`try/except` returning `None`. -/

/-- The ordered member-title candidates inside a hirer card. -/
def hirerTitleSelectors : List String :=
  [".linked-area .text-body-small", ".hirer-card__job-poster", "[class*=\"subtitle\"]"]

/-- One candidate hirer card as `_extract_hiring_team` reads it.
`cardText = none` models `card.inner_text()` raising (the per-card `except`
then skips the member). -/
structure HirerCard where
  nameStrong : QRes := .absent
  nameLink : QRes := .absent
  profileHref : Option (Option String) := none
  titleQ : String → QRes := fun _ => .absent
  degree : QRes := .absent
  cardText : Option String := none

/-- The member-title selector loop: it has no inner `try`, so a raising
candidate aborts the whole member (`.error`); a matching candidate wins only
if its text is non-empty and does not contain `"Job poster"`. -/
def hirerTitleLoop (q : String → QRes) : List String → Except Unit (Option String)
  | [] => .ok none
  | sel :: rest =>
    match q sel with
    | .raises => .error ()
    | .absent => hirerTitleLoop q rest
    | .elem t =>
      if t ≠ "" ∧ strContains t "Job poster" = false then .ok (some (pyStrip t))
      else hirerTitleLoop q rest

/-- Regex `(\d+)\s*mutual\s*connection` matched at the head of the input;
returns the digit group. -/
def parseMutualAt (l : List Char) : Option (List Char) :=
  match l with
  | [] => none
  | c :: cs =>
    if c.isDigit then
      match litSeq "mutual".toList ((cs.dropWhile Char.isDigit).dropWhile isPySpace) with
      | none => none
      | some r2 =>
        match litSeq "connection".toList (r2.dropWhile isPySpace) with
        | none => none
        | some _ => some (c :: cs.takeWhile Char.isDigit)
    else none

/-- `re.search` for the mutual-connections regex. -/
def searchMutual : List Char → Option (List Char)
  | [] => none
  | c :: rest =>
    match parseMutualAt (c :: rest) with
    | some ds => some ds
    | none => searchMutual rest

/-- Build the member record once a non-empty name is resolved, mirroring the
body of the per-card loop of `_extract_hiring_team` (module version: the
name-link text is split on the literal backslash-`n`); a raising title or
degree lookup or a raising `card.inner_text()` skips the member. -/
def mkHirerMember (hc : HirerCard) (name : String) : Option HiringTeamMember :=
  if name = "" then none
  else
    match hirerTitleLoop hc.titleQ hirerTitleSelectors with
    | .error _ => none
    | .ok title =>
      match hc.degree with
      | .raises => none
      | dq =>
        match hc.cardText with
        | none => none
        | some ctext =>
          some { name := name
                 profile_url := (match hc.profileHref with
                   | some (some h) =>
                     if h = "" then none
                     else some ((pySplit "?"
                       (if pyStartsWith h "http" then h
                        else "https://www.linkedin.com" ++ h)).headD "")
                   | _ => none)
                 title := title
                 connection_degree := (match dq with
                   | .elem t => some (pyStrip t)
                   | _ => none)
                 is_job_poster := strContains (pyLower ctext) "job poster"
                 mutual_connections :=
                   (if strContains (pyLower ctext) "mutual connection" then
                     (searchMutual (pyLower ctext).toList).map String.mk
                    else none) }

/-- Parse one hirer card: structured name element first, else the first line
of the profile link's text; a member with no resolvable name — or any
raising lookup — contributes nothing. -/
def parseHirerCard (hc : HirerCard) : Option HiringTeamMember :=
  match hc.nameStrong with
  | .raises => none
  | .elem t => mkHirerMember hc (pyStrip t)
  | .absent =>
    match hc.nameLink with
    | .raises => none
    | .absent => none
    | .elem t =>
      if t = "" then none
      else mkHirerMember hc ((pySplit "\\n" (pyStrip t)).headD "")

/-- `_extract_hiring_team`: `none` when the card lookup raised or no member
survived (`return hiring_team if hiring_team else None`). -/
def extract_hiring_team (cards : Option (List HirerCard)) :
    Option (List HiringTeamMember) :=
  match cards with
  | none => none
  | some cs =>
    if cs.filterMap parseHirerCard = [] then none else some (cs.filterMap parseHirerCard)

/-- The page state `_fetch_job_details` and its three extractions read:
card lookup by id attribute or view link, the click, the description
cascade, the hirer cards, and the match-analysis affordance. -/
structure DetailEnv where
  cardById : Bool := false
  cardByLink : Bool := false
  clickOk : Bool := true
  desc : String → QRes := fun _ => .absent
  team : Option (List HirerCard) := none
  matchBtnFound : Bool := false
  analysisText : Option String := none

/-- `_extract_match_analysis` of the module: `none` when the show-details
affordance never appears within the polling budget, the response container
is missing, or its text is empty; otherwise the text parse (with the
module's literal backslash-`n` split). -/
def extract_match_analysis (e : DetailEnv) : Option MatchAnalysis :=
  if e.matchBtnFound then
    match e.analysisText with
    | none => none
    | some t => if t = "" then none else some (parseMatchAnalysisModule t)
  else none

/-- `_fetch_job_details`: locate the card (id attribute, else view link),
click, then run the three detail extractions independently; an unlocatable
card or a raising click yields `none`. -/
def fetch_job_details (e : DetailEnv) : Option JobDetails :=
  if e.cardById ∨ e.cardByLink then
    if e.clickOk then
      some { description := extract_job_description e.desc
             hiring_team := extract_hiring_team e.team
             match_analysis := extract_match_analysis e }
    else none
  else none

/-- C7: detail-stage failures are isolated.  If every description candidate
raises but the hiring-team extraction succeeds, the returned details have
`description` absent and `hiring_team` populated (non-empty); and in every
successful detail fetch the description depends only on the description
environment — a failed match-analysis or hiring-team attempt can never
blank an already-extracted description. -/
theorem c7_partial_failure_isolation :
    (∀ (e : DetailEnv) (team : List HiringTeamMember),
      (∀ sel, e.desc sel = .raises) →
      extract_hiring_team e.team = some team →
      (e.cardById ∨ e.cardByLink) → e.clickOk = true →
      fetch_job_details e =
        some { description := none, hiring_team := some team,
               match_analysis := extract_match_analysis e } ∧ team ≠ []) ∧
    (∀ (e : DetailEnv) (d : JobDetails), fetch_job_details e = some d →
      d.description = extract_job_description e.desc) := by
  constructor
  · intro e team hraise hteam hcard hclick
    have hdesc : extract_job_description e.desc = none := by
      have := descCascade_skips e.desc descriptionSelectors []
        (fun s _ => Or.inl (hraise s))
      simpa [extract_job_description, descCascade] using this
    have hne : team ≠ [] := by
      unfold extract_hiring_team at hteam
      rcases ht : e.team with _ | cs
      · simp only [ht] at hteam
        exact Option.noConfusion hteam
      · simp only [ht] at hteam
        by_cases hcs : cs.filterMap parseHirerCard = []
        · rw [if_pos hcs] at hteam
          exact Option.noConfusion hteam
        · rw [if_neg hcs] at hteam
          have := Option.some.inj hteam
          subst this
          exact hcs
    refine ⟨?_, hne⟩
    simp [fetch_job_details, hcard, hclick, hdesc, hteam]
  · intro e d hd
    unfold fetch_job_details at hd
    by_cases h1 : e.cardById ∨ e.cardByLink
    · rw [if_pos h1] at hd
      by_cases h2 : e.clickOk = true
      · simp only [h2, if_true, Option.some.injEq] at hd
        subst hd
        rfl
      · simp only [h2] at hd
        simp at hd
    · rw [if_neg h1] at hd
      exact Option.noConfusion hd

/-- Witness hirer card for C7. -/
def c7WitCard : HirerCard :=
  { nameStrong := .elem " Alice Smith ",
    cardText := some "Alice Smith\nJob Poster\n3 mutual connections" }

/-- Witness detail environment for C7: every description candidate raises,
one hiring-team member resolves. -/
def c7WitEnv : DetailEnv :=
  { cardById := true, clickOk := true, desc := fun _ => .raises,
    team := some [c7WitCard] }

/-- The hiring team the witness environment yields. -/
def c7WitTeam : List HiringTeamMember :=
  [{ name := "Alice Smith", is_job_poster := true, mutual_connections := some "3" }]

/-- C7 (witness): the isolation theorem applied to `c7WitEnv`. -/
theorem c7_witness :
    fetch_job_details c7WitEnv =
      some { description := none, hiring_team := some c7WitTeam,
             match_analysis := extract_match_analysis c7WitEnv } ∧ c7WitTeam ≠ [] :=
  c7_partial_failure_isolation.1 c7WitEnv c7WitTeam (fun _ => rfl) (by decide)
    (Or.inl rfl) rfl

/-! ### Service callbacks (C10)

`backend/scraper_service.py` keeps an in-memory `job_store :
Dict[str, ScrapeStatus]`; `ServiceCallback` hooks mutate only the entry
keyed by their own `task_id`, and only if it already exists. -/

/-- `backend/schemas.py` `ScrapeStatus`. -/
structure ScrapeStatus where
  id : String
  status : String
  collection : String
  progress : Nat := 0
  message : Option String := none
  jobs_collected : Nat := 0
  error : Option String := none
  created_at : String
  updated_at : String
  deriving DecidableEq

/-- The in-memory job-status map. -/
def JobStore : Type := String → Option ScrapeStatus

/-- `ServiceCallback.on_start`: guarded by `task_id in job_store`, sets the
message and flips the status to `"running"`. -/
def csOnStart (taskId scraperType : String) (store : JobStore) : JobStore :=
  fun k =>
    if k = taskId then
      (store taskId).map (fun st =>
        { st with message := some ("Starting " ++ scraperType ++ "..."),
                  status := "running" })
    else store k

/-- `ServiceCallback.on_progress`: guarded likewise, sets message, progress
percentage and the update timestamp (`now`). -/
def csOnProgress (taskId message : String) (percent : Nat) (now : String)
    (store : JobStore) : JobStore :=
  fun k =>
    if k = taskId then
      (store taskId).map (fun st =>
        { st with message := some message, progress := percent, updated_at := now })
    else store k

/-- `ServiceCallback.on_complete`: a pass (result handling happens in the
task body), the store is untouched. -/
def csOnComplete (_scraperType : String) (store : JobStore) : JobStore := store

/-- `ServiceCallback.on_error`: guarded likewise, records the error text. -/
def csOnError (taskId err : String) (store : JobStore) : JobStore :=
  fun k =>
    if k = taskId then
      (store taskId).map (fun st => { st with error := some err })
    else store k

/-- C10: the `ServiceCallback` hooks are frame-preserving on the job-status
map.  For a `task_id` with no entry, `on_start`, `on_progress` and
`on_error` leave the map unchanged (and `on_complete` always does); no hook
ever touches an entry under a different key, and no hook creates or removes
an entry — presence under every key is invariant, so hooks only mutate
fields of the already-existing entry keyed by their own `task_id`. -/
theorem c10_callback_frame :
    (∀ (tid st m now e : String) (p : Nat) (store : JobStore), store tid = none →
      csOnStart tid st store = store ∧ csOnProgress tid m p now store = store ∧
      csOnError tid e store = store ∧ csOnComplete st store = store) ∧
    (∀ (tid st m now e k : String) (p : Nat) (store : JobStore), k ≠ tid →
      csOnStart tid st store k = store k ∧ csOnProgress tid m p now store k = store k ∧
      csOnError tid e store k = store k ∧ csOnComplete st store k = store k) ∧
    (∀ (tid st m now e k : String) (p : Nat) (store : JobStore),
      (csOnStart tid st store k).isSome = (store k).isSome ∧
      (csOnProgress tid m p now store k).isSome = (store k).isSome ∧
      (csOnError tid e store k).isSome = (store k).isSome ∧
      (csOnComplete st store k).isSome = (store k).isSome) := by
  refine ⟨?_, ?_, ?_⟩
  · intro tid st m now e p store h
    refine ⟨?_, ?_, ?_, rfl⟩ <;>
      funext k <;>
      simp only [csOnStart, csOnProgress, csOnError, h, Option.map_none'] <;>
      split <;> simp_all
  · intro tid st m now e k p store hk
    exact ⟨by simp [csOnStart, hk], by simp [csOnProgress, hk],
      by simp [csOnError, hk], rfl⟩
  · intro tid st m now e k p store
    refine ⟨?_, ?_, ?_, rfl⟩ <;>
      simp only [csOnStart, csOnProgress, csOnError] <;>
      split <;> simp_all

/-- The empty job store. -/
def emptyJobStore : JobStore := fun _ => none

/-- C10 (witness): the frame theorem applied at concrete task ids over the
empty store and a fresh key. -/
theorem c10_witness :
    (csOnStart "t1" "JobCollection:recommended" emptyJobStore = emptyJobStore ∧
      csOnProgress "t1" "Navigated" 10 "2026-10-12" emptyJobStore = emptyJobStore ∧
      csOnError "t1" "boom" emptyJobStore = emptyJobStore ∧
      csOnComplete "JobCollection:recommended" emptyJobStore = emptyJobStore) ∧
    (csOnStart "t1" "s" emptyJobStore "t2" = emptyJobStore "t2" ∧
      csOnProgress "t1" "m" 5 "now" emptyJobStore "t2" = emptyJobStore "t2" ∧
      csOnError "t1" "e" emptyJobStore "t2" = emptyJobStore "t2" ∧
      csOnComplete "s" emptyJobStore "t2" = emptyJobStore "t2") :=
  ⟨c10_callback_frame.1 "t1" "JobCollection:recommended" "Navigated" "2026-10-12" "boom"
      10 emptyJobStore rfl,
   c10_callback_frame.2.1 "t1" "s" "m" "now" "e" "t2" 5 emptyJobStore (by decide)⟩

/-- Per-page extraction with an arbitrary seen set: the quota-capped,
seen-filtered parse stream, in card order. -/
theorem extractJobsFromPage_filter {α : Type} (parse : α → Option RecommendedJob)
    (cards : List α) :
    ∀ (limit : Nat) (seen : List String),
    extractJobsFromPage parse cards limit seen =
      ((cards.filterMap parse).filter (fun j => decide (j.job_id ∉ seen))).take limit := by
  induction cards with
  | nil => intro limit seen; simp [extractJobsFromPage]
  | cons c cs ih =>
    intro limit seen
    cases limit with
    | zero => simp [extractJobsFromPage]
    | succ rem =>
      cases hp : parse c with
      | none => simp [extractJobsFromPage, hp, ih]
      | some j =>
        by_cases hj : j.job_id ∈ seen
        · simp [extractJobsFromPage, hp, hj, ih]
        · simp [extractJobsFromPage, hp, hj, ih]

/-- Under the hypotheses of `addNewJobs_takes_all` the recorded-id set after
the accumulation loop is exactly the new ids (reversed, since each is
consed) on top of the old set. -/
theorem addNewJobs_seen_exact (limit : Nat) (new jobs : List RecommendedJob)
    (seen : List String)
    (hnodup : (new.map RecommendedJob.job_id).Nodup)
    (hfresh : ∀ j ∈ new, j.job_id ∉ seen)
    (hlen : jobs.length + new.length ≤ limit) :
    (addNewJobs limit new jobs seen).2 =
      (new.map RecommendedJob.job_id).reverse ++ seen := by
  induction new generalizing jobs seen with
  | nil => simp [addNewJobs]
  | cons j rest ih =>
    rw [List.map_cons, List.nodup_cons] at hnodup
    have hcond : j.job_id ∉ seen ∧ jobs.length < limit :=
      ⟨hfresh j (List.mem_cons_self _ _), by simp at hlen; omega⟩
    have hfresh' : ∀ x ∈ rest, x.job_id ∉ j.job_id :: seen := by
      intro x hx
      rw [List.mem_cons]
      rintro (h | h)
      · exact hnodup.1 (h ▸ List.mem_map_of_mem _ hx)
      · exact hfresh x (List.mem_cons_of_mem _ hx) h
    have hlen' : (jobs ++ [j]).length + rest.length ≤ limit := by
      simp at hlen ⊢; omega
    have := ih (jobs ++ [j]) (j.job_id :: seen) hnodup.2 hfresh' hlen'
    simp only [addNewJobs, if_pos hcond, this]
    simp

/-- One fruitless iteration of the scroll loop: an empty extraction bumps
the no-progress counter and triggers one fallback scroll. -/
theorem scrollLoopF_noprogress {α : Type} (parse : α → Option RecommendedJob)
    (attempts : Nat → List α) (limit fuel t : Nat) (jobs : List RecommendedJob)
    (seen : List String) (noNew scrolls : Nat)
    (hg : jobs.length < limit ∧ noNew < 5)
    (hext : extractJobsFromPage parse (attempts t) limit seen = []) :
    scrollLoopF parse attempts limit (fuel + 1) t jobs seen noNew scrolls =
      scrollLoopF parse attempts limit fuel (t + 1) jobs seen (noNew + 1) (scrolls + 1) := by
  simp [scrollLoopF, hg, hext, addNewJobs]

/-- When every further extraction attempt is fruitless and the quota is
unfilled, the scroll loop performs exactly its remaining no-progress
attempts — one fallback scroll each — and stops. -/
theorem scrollLoopF_stall {α : Type} (parse : α → Option RecommendedJob)
    (attempts : Nat → List α) (limit : Nat) :
    ∀ (fuel t : Nat) (jobs : List RecommendedJob) (seen : List String)
      (noNew scrolls : Nat),
    jobs.length < limit → 5 - noNew ≤ fuel →
    (∀ u, extractJobsFromPage parse (attempts u) limit seen = []) →
    scrollLoopF parse attempts limit fuel t jobs seen noNew scrolls =
      some (jobs, seen, scrolls + (5 - noNew)) := by
  intro fuel
  induction fuel with
  | zero =>
    intro t jobs seen noNew scrolls hlen hfuel hext
    have hg : ¬(jobs.length < limit ∧ noNew < 5) := by omega
    rw [scrollLoopF_exit parse attempts limit 0 t jobs seen noNew scrolls hg,
      show 5 - noNew = 0 from by omega]
    simp
  | succ fuel ih =>
    intro t jobs seen noNew scrolls hlen hfuel hext
    by_cases hg : jobs.length < limit ∧ noNew < 5
    · rw [scrollLoopF_noprogress parse attempts limit fuel t jobs seen noNew scrolls hg
        (hext t)]
      rw [ih (t + 1) jobs seen (noNew + 1) (scrolls + 1) hlen (by omega) hext]
      have harith : scrolls + 1 + (5 - (noNew + 1)) = scrolls + (5 - noNew) := by omega
      rw [harith]
    · rw [scrollLoopF_exit parse attempts limit (fuel + 1) t jobs seen noNew scrolls hg,
        show 5 - noNew = 0 from by omega]
      simp

/-- The post-page id registration as an explicit list: each id is consed, so
the result is the reversed id list on top of the old set. -/
theorem foldl_cons_eq (l : List RecommendedJob) :
    ∀ seen : List String,
    l.foldl (fun s j => j.job_id :: s) seen =
      (l.map RecommendedJob.job_id).reverse ++ seen := by
  induction l with
  | nil => intro seen; simp
  | cons j rest ih =>
    intro seen
    simp only [List.foldl_cons, ih (j.job_id :: seen), List.map_cons, List.reverse_cons]
    simp

/-- A statically rendered page (the same cards at every extraction
attempt): the scroll loop collects exactly the fresh records of the page's
parse stream — first attempt takes them all, later attempts add nothing —
and records exactly their ids. -/
theorem scrollLoopF_static {α : Type} (parse : α → Option RecommendedJob)
    (cards : List α) (limit : Nat) (seen0 : List String)
    (hnodup : ((((cards.filterMap parse).filter
      (fun j => decide (j.job_id ∉ seen0))).map RecommendedJob.job_id)).Nodup)
    (hne : 1 ≤ ((cards.filterMap parse).filter
      (fun j => decide (j.job_id ∉ seen0))).length)
    (hcap : ((cards.filterMap parse).filter
      (fun j => decide (j.job_id ∉ seen0))).length ≤ limit) :
    ∃ k, scrollLoopF parse (fun _ => cards) limit (limit * 5 + 5) 0 [] seen0 0 0 =
      some ((cards.filterMap parse).filter (fun j => decide (j.job_id ∉ seen0)),
        (((cards.filterMap parse).filter (fun j => decide (j.job_id ∉ seen0))).map
          RecommendedJob.job_id).reverse ++ seen0, k) := by
  set new := (cards.filterMap parse).filter (fun j => decide (j.job_id ∉ seen0)) with hnew
  have hfresh : ∀ j ∈ new, j.job_id ∉ seen0 := by
    intro j hj
    have := List.of_mem_filter hj
    simpa using this
  have hextract : extractJobsFromPage parse cards limit seen0 = new := by
    rw [extractJobsFromPage_filter parse cards limit seen0, ← hnew,
      List.take_of_length_le hcap]
  have hadd1 : (addNewJobs limit new [] seen0).1 = new := by
    have := addNewJobs_takes_all limit new [] seen0 hnodup hfresh (by simpa using hcap)
    simpa using this
  have hadd2 : (addNewJobs limit new [] seen0).2 =
      (new.map RecommendedJob.job_id).reverse ++ seen0 :=
    addNewJobs_seen_exact limit new [] seen0 hnodup hfresh (by simpa using hcap)
  have hlen0 : (0 : Nat) < limit := by omega
  rw [show limit * 5 + 5 = (limit * 5 + 4) + 1 from rfl]
  rw [scrollLoopF_progress parse (fun _ => cards) limit (limit * 5 + 4) 0 [] seen0 0 0
    ⟨by simpa using hlen0, by omega⟩
    (by rw [hextract, hadd1]; intro hc; rw [List.length_nil] at hc; omega)]
  rw [hextract, hadd1, hadd2]
  by_cases hfill : new.length = limit
  · refine ⟨0, ?_⟩
    rw [scrollLoopF_exit parse (fun _ => cards) limit (limit * 5 + 4) 1 new _ 0 0
      (by simp [hfill])]
  · have hext1 : extractJobsFromPage parse cards limit
        ((new.map RecommendedJob.job_id).reverse ++ seen0) = [] := by
      rw [extractJobsFromPage_filter]
      have hnil : (cards.filterMap parse).filter
          (fun j => decide (j.job_id ∉
            (new.map RecommendedJob.job_id).reverse ++ seen0)) = [] := by
        refine List.filter_eq_nil_iff.mpr ?_
        intro j hj
        by_cases hjs : j.job_id ∈ seen0
        · simp [hjs]
        · have hjnew : j ∈ new := by
            rw [hnew]
            exact List.mem_filter.mpr ⟨hj, by simpa using hjs⟩
          have hjid : j.job_id ∈ new.map RecommendedJob.job_id :=
            List.mem_map_of_mem _ hjnew
          simp [hjid]
      rw [hnil]
      simp
    refine ⟨5, ?_⟩
    rw [scrollLoopF_stall parse (fun _ => cards) limit (limit * 5 + 4) 1 new
      ((new.map RecommendedJob.job_id).reverse ++ seen0) 0 0 (by omega) (by omega)
      (fun u => hext1)]

/-- One page round of the outer loop whose page yields records: accumulate,
then either stop at the limit, paginate, or stop for want of a next page. -/
theorem scrapeLoopF_page_step {α : Type} (parse : α → Option RecommendedJob)
    (pages : List (Nat → List α)) (denv : String → Option JobDetails) (fd : Bool)
    (limit maxPages fuel curPage : Nat) (allJobs : List RecommendedJob)
    (seen : List String) (jop0 : List RecommendedJob) (sn : List String) (k : Nat)
    (hg : allJobs.length < limit ∧ curPage ≤ maxPages)
    (hscroll : scrollLoopF parse (pageAt pages (curPage - 1)) (limit - allJobs.length)
      ((limit - allJobs.length) * 5 + 5) 0 [] seen 0 0 = some (jop0, sn, k))
    (h0 : ¬(jop0 = [])) :
    scrapeLoopF parse pages denv fd limit maxPages (fuel + 1) curPage allJobs seen =
      (if limit ≤ allJobs.length +
          (if fd then jop0.map (applyDetails denv) else jop0).length then
        some (allJobs ++ (if fd then jop0.map (applyDetails denv) else jop0))
      else if curPage < pages.length then
        scrapeLoopF parse pages denv fd limit maxPages fuel (curPage + 1)
          (allJobs ++ (if fd then jop0.map (applyDetails denv) else jop0))
          ((if fd then jop0.map (applyDetails denv) else jop0).foldl
            (fun s j => j.job_id :: s) sn)
      else some (allJobs ++ (if fd then jop0.map (applyDetails denv) else jop0))) := by
  simp [scrapeLoopF, hg, hscroll, h0]

/-- One page round of the outer loop whose page yields nothing: the walk
stops with the accumulated records. -/
theorem scrapeLoopF_page_empty {α : Type} (parse : α → Option RecommendedJob)
    (pages : List (Nat → List α)) (denv : String → Option JobDetails) (fd : Bool)
    (limit maxPages fuel curPage : Nat) (allJobs : List RecommendedJob)
    (seen : List String) (sn : List String) (k : Nat)
    (hg : allJobs.length < limit ∧ curPage ≤ maxPages)
    (hscroll : scrollLoopF parse (pageAt pages (curPage - 1)) (limit - allJobs.length)
      ((limit - allJobs.length) * 5 + 5) 0 [] seen 0 0 = some ([], sn, k)) :
    scrapeLoopF parse pages denv fd limit maxPages (fuel + 1) curPage allJobs seen =
      some allJobs := by
  simp [scrapeLoopF, hg, hscroll]

/-- First-seen-position refinement over a two-page walk with statically
rendered pages, all records within the limit: the walk returns page 1's
parse stream followed by exactly those page-2 records whose ids were not
already extracted on page 1, in order — a record re-rendered on page 2 is
dropped and its page-1 occurrence keeps its position. -/
theorem scrape_two_page_dedup {α : Type} (parse : α → Option RecommendedJob)
    (p1 p2 : List α) (denv : String → Option JobDetails) (fd : Bool)
    (limit maxPages : Nat)
    (hmp : 2 ≤ maxPages)
    (h1nd : ((p1.filterMap parse).map RecommendedJob.job_id).Nodup)
    (h2nd : ((p2.filterMap parse).map RecommendedJob.job_id).Nodup)
    (hs1pos : 1 ≤ (p1.filterMap parse).length)
    (hs1lt : (p1.filterMap parse).length < limit)
    (hcap : (p1.filterMap parse).length +
      ((p2.filterMap parse).filter (fun j => decide (j.job_id ∉
        (p1.filterMap parse).map RecommendedJob.job_id))).length ≤ limit) :
    (scrape parse [fun _ => p1, fun _ => p2] denv fd limit maxPages).map
        RecommendedJob.job_id =
      ((p1.filterMap parse) ++
        (p2.filterMap parse).filter (fun j => decide (j.job_id ∉
          (p1.filterMap parse).map RecommendedJob.job_id))).map
        RecommendedJob.job_id := by
  have hs1ne : ¬(p1.filterMap parse = []) := by
    intro h; rw [h] at hs1pos; simp at hs1pos
  have hfilter1 : (p1.filterMap parse).filter
      (fun j => decide (j.job_id ∉ ([] : List String))) = p1.filterMap parse := by
    apply List.filter_eq_self.mpr
    intro a _
    simp
  obtain ⟨k1, hscroll1⟩ := scrollLoopF_static parse p1 limit []
    (by rw [hfilter1]; exact h1nd) (by rw [hfilter1]; omega) (by rw [hfilter1]; omega)
  rw [hfilter1] at hscroll1
  unfold scrape
  have hg1 : ([] : List RecommendedJob).length < limit ∧ 1 ≤ maxPages :=
    ⟨by simp; omega, by omega⟩
  have hscroll1' : scrollLoopF parse
      (pageAt ([fun _ => p1, fun _ => p2] : List (Nat → List α)) (1 - 1))
      (limit - ([] : List RecommendedJob).length)
      ((limit - ([] : List RecommendedJob).length) * 5 + 5) 0 [] [] 0 0 =
      some (p1.filterMap parse,
        ((p1.filterMap parse).map RecommendedJob.job_id).reverse ++ [], k1) := hscroll1
  rw [scrapeLoopF_page_step parse _ denv fd limit maxPages maxPages 1 [] []
    (p1.filterMap parse)
    (((p1.filterMap parse).map RecommendedJob.job_id).reverse ++ []) k1
    hg1 hscroll1' hs1ne]
  have hml1 : (if fd then (p1.filterMap parse).map (applyDetails denv)
      else p1.filterMap parse).length = (p1.filterMap parse).length := by
    cases fd <;> simp
  rw [if_neg (by rw [hml1]; simp only [List.length_nil, Nat.zero_add]; omega)]
  rw [if_pos (show (1 : Nat) <
    ([fun _ => p1, fun _ => p2] : List (Nat → List α)).length by simp)]
  simp only [List.nil_append, List.append_nil]
  have hmapids : (if fd then (p1.filterMap parse).map (applyDetails denv)
      else p1.filterMap parse).map RecommendedJob.job_id =
      (p1.filterMap parse).map RecommendedJob.job_id := by
    cases fd <;> simp [map_applyDetails_ids, applyDetails_job_id]
  have hseen2 : (if fd then (p1.filterMap parse).map (applyDetails denv)
      else p1.filterMap parse).foldl (fun s j => j.job_id :: s)
      ((p1.filterMap parse).map RecommendedJob.job_id).reverse =
      ((p1.filterMap parse).map RecommendedJob.job_id).reverse ++
        ((p1.filterMap parse).map RecommendedJob.job_id).reverse := by
    rw [foldl_cons_eq, hmapids]
  rw [hseen2]
  obtain ⟨m, rfl⟩ : ∃ m, maxPages = m + 2 := ⟨maxPages - 2, by omega⟩
  rw [show m + 2 = (m + 1) + 1 from rfl]
  have hg2 : (if fd then (p1.filterMap parse).map (applyDetails denv)
      else p1.filterMap parse).length < limit ∧ (1 + 1 : Nat) ≤ (m + 1) + 1 := by
    constructor
    · rw [hml1]; omega
    · omega
  have hmem2 : ∀ x : String,
      x ∈ ((p1.filterMap parse).map RecommendedJob.job_id).reverse ++
        ((p1.filterMap parse).map RecommendedJob.job_id).reverse ↔
      x ∈ (p1.filterMap parse).map RecommendedJob.job_id := by
    intro x; simp
  have hcongr : (p2.filterMap parse).filter (fun j => decide (j.job_id ∉
      ((p1.filterMap parse).map RecommendedJob.job_id).reverse ++
        ((p1.filterMap parse).map RecommendedJob.job_id).reverse)) =
      (p2.filterMap parse).filter (fun j => decide (j.job_id ∉
        (p1.filterMap parse).map RecommendedJob.job_id)) := by
    apply List.filter_congr
    intro j _
    exact decide_eq_decide.mpr (not_congr (hmem2 j.job_id))
  by_cases hn2 : (p2.filterMap parse).filter (fun j => decide (j.job_id ∉
      (p1.filterMap parse).map RecommendedJob.job_id)) = []
  · have hext2 : ∀ u : Nat, extractJobsFromPage parse p2
        (limit - (if fd then (p1.filterMap parse).map (applyDetails denv)
          else p1.filterMap parse).length)
        (((p1.filterMap parse).map RecommendedJob.job_id).reverse ++
          ((p1.filterMap parse).map RecommendedJob.job_id).reverse) = [] := by
      intro u
      rw [extractJobsFromPage_filter, hcongr, hn2]
      simp
    have hstall2 := scrollLoopF_stall parse (fun _ => p2)
      (limit - (if fd then (p1.filterMap parse).map (applyDetails denv)
        else p1.filterMap parse).length)
      ((limit - (if fd then (p1.filterMap parse).map (applyDetails denv)
        else p1.filterMap parse).length) * 5 + 5) 0 []
      (((p1.filterMap parse).map RecommendedJob.job_id).reverse ++
        ((p1.filterMap parse).map RecommendedJob.job_id).reverse) 0 0
      (by simp only [List.length_nil]; rw [hml1]; omega) (by omega) hext2
    have hstall2' : scrollLoopF parse
        (pageAt ([fun _ => p1, fun _ => p2] : List (Nat → List α)) ((1 + 1) - 1))
        (limit - (if fd then (p1.filterMap parse).map (applyDetails denv)
          else p1.filterMap parse).length)
        ((limit - (if fd then (p1.filterMap parse).map (applyDetails denv)
          else p1.filterMap parse).length) * 5 + 5) 0 []
        (((p1.filterMap parse).map RecommendedJob.job_id).reverse ++
          ((p1.filterMap parse).map RecommendedJob.job_id).reverse) 0 0 =
        some ([], ((p1.filterMap parse).map RecommendedJob.job_id).reverse ++
          ((p1.filterMap parse).map RecommendedJob.job_id).reverse, 0 + (5 - 0)) :=
      hstall2
    rw [scrapeLoopF_page_empty parse _ denv fd limit ((m + 1) + 1) (m + 1) (1 + 1)
      (if fd then (p1.filterMap parse).map (applyDetails denv) else p1.filterMap parse)
      (((p1.filterMap parse).map RecommendedJob.job_id).reverse ++
        ((p1.filterMap parse).map RecommendedJob.job_id).reverse)
      (((p1.filterMap parse).map RecommendedJob.job_id).reverse ++
        ((p1.filterMap parse).map RecommendedJob.job_id).reverse)
      (0 + (5 - 0)) hg2 hstall2']
    simp only [Option.getD_some]
    rw [List.take_of_length_le (by rw [hml1]; omega)]
    rw [hn2, List.append_nil]
    exact hmapids
  · obtain ⟨k2, hscroll2⟩ := scrollLoopF_static parse p2
      (limit - (if fd then (p1.filterMap parse).map (applyDetails denv)
        else p1.filterMap parse).length)
      (((p1.filterMap parse).map RecommendedJob.job_id).reverse ++
        ((p1.filterMap parse).map RecommendedJob.job_id).reverse)
      (by rw [hcongr]; exact h2nd.sublist ((List.filter_sublist _).map _))
      (by rw [hcongr]; have := List.length_pos.mpr hn2; omega)
      (by rw [hcongr, hml1]; omega)
    rw [hcongr] at hscroll2
    have hscroll2' : scrollLoopF parse
        (pageAt ([fun _ => p1, fun _ => p2] : List (Nat → List α)) ((1 + 1) - 1))
        (limit - (if fd then (p1.filterMap parse).map (applyDetails denv)
          else p1.filterMap parse).length)
        ((limit - (if fd then (p1.filterMap parse).map (applyDetails denv)
          else p1.filterMap parse).length) * 5 + 5) 0 []
        (((p1.filterMap parse).map RecommendedJob.job_id).reverse ++
          ((p1.filterMap parse).map RecommendedJob.job_id).reverse) 0 0 =
        some ((p2.filterMap parse).filter (fun j => decide (j.job_id ∉
            (p1.filterMap parse).map RecommendedJob.job_id)),
          (((p2.filterMap parse).filter (fun j => decide (j.job_id ∉
            (p1.filterMap parse).map RecommendedJob.job_id))).map
              RecommendedJob.job_id).reverse ++
            (((p1.filterMap parse).map RecommendedJob.job_id).reverse ++
              ((p1.filterMap parse).map RecommendedJob.job_id).reverse), k2) :=
      hscroll2
    rw [scrapeLoopF_page_step parse _ denv fd limit ((m + 1) + 1) (m + 1) (1 + 1)
      (if fd then (p1.filterMap parse).map (applyDetails denv) else p1.filterMap parse)
      (((p1.filterMap parse).map RecommendedJob.job_id).reverse ++
        ((p1.filterMap parse).map RecommendedJob.job_id).reverse)
      ((p2.filterMap parse).filter (fun j => decide (j.job_id ∉
        (p1.filterMap parse).map RecommendedJob.job_id)))
      ((((p2.filterMap parse).filter (fun j => decide (j.job_id ∉
        (p1.filterMap parse).map RecommendedJob.job_id))).map
          RecommendedJob.job_id).reverse ++
        (((p1.filterMap parse).map RecommendedJob.job_id).reverse ++
          ((p1.filterMap parse).map RecommendedJob.job_id).reverse)) k2
      hg2 hscroll2' hn2]
    have hml2 : (if fd then ((p2.filterMap parse).filter (fun j => decide (j.job_id ∉
        (p1.filterMap parse).map RecommendedJob.job_id))).map (applyDetails denv)
        else (p2.filterMap parse).filter (fun j => decide (j.job_id ∉
          (p1.filterMap parse).map RecommendedJob.job_id))).length =
        ((p2.filterMap parse).filter (fun j => decide (j.job_id ∉
          (p1.filterMap parse).map RecommendedJob.job_id))).length := by
      cases fd <;> simp
    have hmap2 : (if fd then ((p2.filterMap parse).filter (fun j => decide (j.job_id ∉
        (p1.filterMap parse).map RecommendedJob.job_id))).map (applyDetails denv)
        else (p2.filterMap parse).filter (fun j => decide (j.job_id ∉
          (p1.filterMap parse).map RecommendedJob.job_id))).map RecommendedJob.job_id =
        ((p2.filterMap parse).filter (fun j => decide (j.job_id ∉
          (p1.filterMap parse).map RecommendedJob.job_id))).map
          RecommendedJob.job_id := by
      cases fd <;> simp [map_applyDetails_ids, applyDetails_job_id]
    have hfin : ((((some ((if fd then (p1.filterMap parse).map (applyDetails denv)
        else p1.filterMap parse) ++
        (if fd then ((p2.filterMap parse).filter (fun j => decide (j.job_id ∉
          (p1.filterMap parse).map RecommendedJob.job_id))).map (applyDetails denv)
         else (p2.filterMap parse).filter (fun j => decide (j.job_id ∉
          (p1.filterMap parse).map RecommendedJob.job_id))))).getD []).take limit).map
        RecommendedJob.job_id) =
        ((p1.filterMap parse) ++
          (p2.filterMap parse).filter (fun j => decide (j.job_id ∉
            (p1.filterMap parse).map RecommendedJob.job_id))).map
          RecommendedJob.job_id := by
      simp only [Option.getD_some]
      rw [List.take_of_length_le
        (by simp only [List.length_append]; rw [hml1, hml2]; omega)]
      simp only [List.map_append, hmapids, hmap2]
    by_cases hfull : limit ≤ (if fd then (p1.filterMap parse).map (applyDetails denv)
        else p1.filterMap parse).length +
        (if fd then ((p2.filterMap parse).filter (fun j => decide (j.job_id ∉
          (p1.filterMap parse).map RecommendedJob.job_id))).map (applyDetails denv)
         else (p2.filterMap parse).filter (fun j => decide (j.job_id ∉
          (p1.filterMap parse).map RecommendedJob.job_id))).length
    · rw [if_pos hfull]
      exact hfin
    · rw [if_neg hfull, if_neg (show ¬((1 + 1 : Nat) <
        ([fun _ => p1, fun _ => p2] : List (Nat → List α)).length) by simp)]
      exact hfin

/-- Fixture for the cross-page dedup claim: id "1" then id "9" on page 1. -/
def c3CardA : MCard := { dataJobId := some "1", footerText := some "x" }

/-- Fixture: the card whose id "9" is rendered on both pages. -/
def c3CardX : MCard := { dataJobId := some "9", footerText := some "x" }

/-- Fixture: id "2", page 2 only. -/
def c3CardB : MCard := { dataJobId := some "2", footerText := some "x" }

/-- Two statically rendered pages with the id-"9" card on both. -/
def c3Pages : List (Nat → List MCard) :=
  [fun _ => [c3CardA, c3CardX], fun _ => [c3CardX, c3CardB]]

/-- C3, counterexample to "the output contains that identifier exactly
once": id "9" is rendered on page 1 (second slot) and again on page 2, yet
with limit = 1 the walk stops after the first record and "9" appears ZERO
times in the output — exactly-once holds only for ids that survive limit
truncation. -/
theorem c3_counterexample :
    ((([c3CardA, c3CardX].filterMap (parseJobCardModule "recommended")).map
        RecommendedJob.job_id = ["1", "9"]) ∧
      (([c3CardX, c3CardB].filterMap (parseJobCardModule "recommended")).map
        RecommendedJob.job_id = ["9", "2"])) ∧
    ((scrape (parseJobCardModule "recommended") c3Pages (fun _ => none) false 1 5).map
      RecommendedJob.job_id = ["1"]) ∧
    (((scrape (parseJobCardModule "recommended") c3Pages (fun _ => none) false 1 5).map
      RecommendedJob.job_id).count "9" = 0) := by
  refine ⟨⟨?_, ?_⟩, ?_, ?_⟩ <;> decide

/-- C3: the seen-identifier set is global to the whole walk, so (first
conjunct, any page environment) the returned job_ids are pairwise distinct
and every id present in the output occurs exactly once; and (second
conjunct) over a two-page walk whose records fit in the limit, the output
ids are exactly page 1's parse stream followed by the page-2 records whose
ids were not seen on page 1 — a card re-rendered on page 2 is dropped and
its identifier keeps its first-seen position. -/
theorem c3_dedup_global {α : Type} (parse : α → Option RecommendedJob)
    (p1 p2 : List α) (pages : List (Nat → List α))
    (denv : String → Option JobDetails) (fd : Bool) (limit maxPages : Nat)
    (hmp : 2 ≤ maxPages)
    (h1nd : ((p1.filterMap parse).map RecommendedJob.job_id).Nodup)
    (h2nd : ((p2.filterMap parse).map RecommendedJob.job_id).Nodup)
    (hs1pos : 1 ≤ (p1.filterMap parse).length)
    (hs1lt : (p1.filterMap parse).length < limit)
    (hcap : (p1.filterMap parse).length +
      ((p2.filterMap parse).filter (fun j => decide (j.job_id ∉
        (p1.filterMap parse).map RecommendedJob.job_id))).length ≤ limit) :
    (((scrape parse pages denv fd limit maxPages).map RecommendedJob.job_id).Nodup ∧
      ∀ x ∈ (scrape parse pages denv fd limit maxPages).map RecommendedJob.job_id,
        ((scrape parse pages denv fd limit maxPages).map
          RecommendedJob.job_id).count x = 1) ∧
    (scrape parse [fun _ => p1, fun _ => p2] denv fd limit maxPages).map
        RecommendedJob.job_id =
      ((p1.filterMap parse) ++
        (p2.filterMap parse).filter (fun j => decide (j.job_id ∉
          (p1.filterMap parse).map RecommendedJob.job_id))).map
        RecommendedJob.job_id := by
  refine ⟨⟨scrape_ids_nodup parse pages denv fd limit maxPages, ?_⟩, ?_⟩
  · intro x hx
    exact List.count_eq_one_of_mem
      (scrape_ids_nodup parse pages denv fd limit maxPages) hx
  · exact scrape_two_page_dedup parse p1 p2 denv fd limit maxPages
      hmp h1nd h2nd hs1pos hs1lt hcap

/-- C3 witness: on the fixture pages, with limit 5 and maxPages 2, the
output ids are ["1", "9", "2"] — pairwise distinct, the duplicated id "9"
exactly once at its first-seen position. -/
theorem c3_witness :
    ((((scrape (parseJobCardModule "recommended") c3Pages (fun _ => none) false 5 2).map
        RecommendedJob.job_id).Nodup ∧
      ∀ x ∈ (scrape (parseJobCardModule "recommended") c3Pages (fun _ => none) false
          5 2).map RecommendedJob.job_id,
        ((scrape (parseJobCardModule "recommended") c3Pages (fun _ => none) false 5 2).map
          RecommendedJob.job_id).count x = 1) ∧
      (scrape (parseJobCardModule "recommended") c3Pages (fun _ => none) false 5 2).map
          RecommendedJob.job_id =
        (([c3CardA, c3CardX].filterMap (parseJobCardModule "recommended")) ++
          ([c3CardX, c3CardB].filterMap (parseJobCardModule "recommended")).filter
            (fun j => decide (j.job_id ∉
              ([c3CardA, c3CardX].filterMap (parseJobCardModule "recommended")).map
                RecommendedJob.job_id))).map RecommendedJob.job_id) ∧
    (scrape (parseJobCardModule "recommended") c3Pages (fun _ => none) false 5 2).map
      RecommendedJob.job_id = ["1", "9", "2"] :=
  ⟨c3_dedup_global (parseJobCardModule "recommended") [c3CardA, c3CardX]
      [c3CardX, c3CardB] c3Pages (fun _ => none) false 5 2 (by decide) (by decide)
      (by decide) (by decide) (by decide) (by decide),
    by decide⟩
